import Mathlib

/-!
Verification of the relational IR of `materialize` (dataflow/types.rs) and the
compute-controller service-name functions (controller/orchestrator.rs).

The Rust data types are embedded shallowly: enums become inductives, structs
become structures, `Vec` becomes `List`, `usize`/`u64` become `Nat` (with
explicit bounds where overflow matters), and functions that can panic return
`Option` (`none` models the panic / failed `assert!`).  Serde's derived JSON
serialization is modelled by explicit `encode*`/`decode*` functions over a
small JSON value type, following the attributes present in the source
(`rename_all = "snake_case"` where — and only where — it is written).
-/

/-- Modelled from the spec: a self-describing JSON value, the target of the
serialization contract of §4.3/§6 (the concrete serializer, `serde_json`, is
not part of the sources). -/
inductive Json where
  | null : Json
  | bool : Bool → Json
  | num : Int → Json
  | str : String → Json
  | arr : List Json → Json
  | obj : List (String × Json) → Json

/-- Modelled from the spec: the runtime scalar types of `crate::repr`
(not under the provided sources); "one of the runtime's scalar types:
string, int32, etc., plus null" (§3). -/
inductive ScalarType where
  | null
  | bool
  | int32
  | string
deriving DecidableEq

/-- Modelled from the spec: `Datum`, "a tagged scalar value" (§3), from
`crate::repr` which is not under the provided sources.  Variant names follow
the upstream `Datum` enum (`Null`, `False`, `True`, `Int32`, `String`). -/
inductive Datum where
  | Null
  | False
  | True
  | Int32 (i : Int)
  | String (s : String)
deriving DecidableEq

/-- Modelled from the spec: `ColumnType` of `crate::repr`,
"{ name?: String, nullable: bool, scalar_type: ScalarType }" (§3). -/
structure ColumnType where
  name : Option String
  nullable : Bool
  scalar_type : ScalarType
deriving DecidableEq

/-- Modelled from the spec: `RelationType` of `crate::repr`, an "ordered
sequence of ColumnType" (§3). -/
structure RelationType where
  column_types : List ColumnType
deriving DecidableEq

/-- Modelled from the spec: `Datum::scalar_type`, which "must agree with its
carried value" (§3). -/
def Datum.scalar_type : Datum → ScalarType
  | .Null => .null
  | .False => .bool
  | .True => .bool
  | .Int32 _ => .int32
  | .String _ => .string

/-- Modelled from the spec: `Datum::is_instance_of`, which "captures
nullability + scalar-type compatibility" (§3): a null datum inhabits exactly
the nullable column types, any other datum a column type with its scalar
type. -/
def Datum.is_instance_of (d : Datum) (ct : ColumnType) : Bool :=
  match d with
  | .Null => ct.nullable
  | _ => d.scalar_type == ct.scalar_type

/-- Modelled from the spec: `ScalarType::is_instance_of` (used by the
`OrDefault` check in `typ`), the scalar-type-level compatibility: equality
of scalar types, or a null scalar against a nullable column. -/
def ScalarType.is_instance_of (st : ScalarType) (ct : ColumnType) : Bool :=
  st == ct.scalar_type || (st == .null && ct.nullable)

/-- Modelled from the spec: the column-wise lattice join `ColumnType::union`
of `crate::repr`: "same scalar type; nullability = l.nullable ∨ r.nullable;
name optional" (§3).  Differing scalar types do not admit a join, which the
upstream code surfaces as an assertion failure (`none` here). -/
def ColumnType.union (l r : ColumnType) : Option ColumnType :=
  if l.scalar_type = r.scalar_type then
    some { name := if l.name = r.name then l.name else none
           nullable := l.nullable || r.nullable
           scalar_type := l.scalar_type }
  else none

/-- Modelled from the spec: the named unary function kinds of
`dataflow::func` (not under the provided sources; "named, not defined
here", §1).  Two representative kinds stand in for the enumeration. -/
inductive UnaryFunc where
  | not
  | neg_int32
deriving DecidableEq

/-- Modelled from the spec: the named binary function kinds of
`dataflow::func`. -/
inductive BinaryFunc where
  | add_int32
  | eq
deriving DecidableEq

/-- Modelled from the spec: the named variadic function kinds of
`dataflow::func`. -/
inductive VariadicFunc where
  | coalesce
  | concat
deriving DecidableEq

/-- Modelled from the spec: the named aggregate function kinds of
`dataflow::func`. -/
inductive AggregateFunc where
  | sum_int32
  | count
deriving DecidableEq

/-- Scalar expressions (types.rs, `ScalarExpr`). -/
inductive ScalarExpr where
  | Column (i : Nat)
  | Literal (d : Datum)
  | CallUnary (func : UnaryFunc) (expr : ScalarExpr)
  | CallBinary (func : BinaryFunc) (expr1 : ScalarExpr) (expr2 : ScalarExpr)
  | CallVariadic (func : VariadicFunc) (exprs : List ScalarExpr)
  | If (cond : ScalarExpr) (then_ : ScalarExpr) (els : ScalarExpr)

/-- Aggregate expressions (types.rs, `AggregateExpr`). -/
structure AggregateExpr where
  func : AggregateFunc
  expr : ScalarExpr
  distinct : Bool

/-- Relation expressions (types.rs, `RelationExpr`). -/
inductive RelationExpr where
  | Constant (rows : List (List Datum)) (typ : RelationType)
  | Get (name : String) (typ : RelationType)
  | Let (name : String) (value : RelationExpr) (body : RelationExpr)
  | Project (input : RelationExpr) (outputs : List Nat)
  | Map (input : RelationExpr) (scalars : List (ScalarExpr × ColumnType))
  | Filter (input : RelationExpr) (predicates : List ScalarExpr)
  | Join (inputs : List RelationExpr) («variables» : List (List (Nat × Nat)))
  | Reduce (input : RelationExpr) (group_key : List Nat)
      (aggregates : List (AggregateExpr × ColumnType))
  | TopK (input : RelationExpr) (group_key : List Nat) (order_key : List Nat)
      (limit : Nat)
  | OrDefault (input : RelationExpr) (default : List Datum)
  | Negate (input : RelationExpr)
  | Distinct (input : RelationExpr)
  | Union (left : RelationExpr) (right : RelationExpr)

/-- Modelled from the spec: `std::net::SocketAddr`, serialized through its
canonical display string; kept opaque as that string. -/
structure SocketAddr where
  addr : String
deriving DecidableEq

/-- Modelled from the spec: `url::Url`, serialized (via `url_serde`) as its
canonical string; kept opaque as that string. -/
structure Url where
  url : String
deriving DecidableEq

/-- Kafka source connector (types.rs, `KafkaSourceConnector`). -/
structure KafkaSourceConnector where
  addr : SocketAddr
  topic : String
  raw_schema : String
  schema_registry_url : Option Url
deriving DecidableEq

/-- Local source connector (types.rs, `LocalSourceConnector`). -/
structure LocalSourceConnector where
deriving DecidableEq

/-- Source connectors (types.rs, `SourceConnector`).  Note: this enum carries
no `rename_all` attribute in the source. -/
inductive SourceConnector where
  | Kafka (c : KafkaSourceConnector)
  | Local (c : LocalSourceConnector)
deriving DecidableEq

/-- Kafka sink connector (types.rs, `KafkaSinkConnector`). -/
structure KafkaSinkConnector where
  addr : SocketAddr
  topic : String
  schema_id : Int
deriving DecidableEq

/-- Sink connectors (types.rs, `SinkConnector`).  Note: this enum carries no
`rename_all` attribute in the source. -/
inductive SinkConnector where
  | Kafka (c : KafkaSinkConnector)
deriving DecidableEq

/-- A data source (types.rs, `Source`). -/
structure Source where
  name : String
  connector : SourceConnector
  typ : RelationType

/-- A sink (types.rs, `Sink`). -/
structure Sink where
  name : String
  «from» : String × RelationType
  connector : SinkConnector

/-- A view (types.rs, `View`).  A plain record: the source derives
`Serialize`/`Deserialize` and has public fields, with no constructor
function and no validation of any relation between `typ` and
`relation_expr`. -/
structure View where
  name : String
  relation_expr : RelationExpr
  typ : RelationType

/-- A named stream of data (types.rs, `Dataflow`). -/
inductive Dataflow where
  | Source (s : Source)
  | Sink (s : Sink)
  | View (v : View)

/-- Reports the name of this dataflow (types.rs, `Dataflow::name`). -/
def Dataflow.name : Dataflow → String
  | .Source s => s.name
  | .Sink k => k.name
  | .View v => v.name

/-- Reports the type of the datums produced by this dataflow
(types.rs, `Dataflow::typ`). -/
def Dataflow.typ : Dataflow → RelationType
  | .Source s => s.typ
  | .Sink k => k.«from».2
  | .View v => v.typ

/-- Column selection by index list (the `outputs`/`group_key` loops of
`RelationExpr::typ`); an out-of-range index is the Rust panic, `none` here. -/
def selectCols (cols : List ColumnType) : List Nat → Option (List ColumnType)
  | [] => some []
  | i :: is => do
      let c ← cols[i]?
      let rest ← selectCols cols is
      some (c :: rest)

/-- Column-wise lattice join of zipped column types (the `Union` arm of
`RelationExpr::typ`). -/
def joinCols : List (ColumnType × ColumnType) → Option (List ColumnType)
  | [] => some []
  | p :: ps => do
      let c ← p.1.union p.2
      let rest ← joinCols ps
      some (c :: rest)

mutual

/-- Type derivation (types.rs, `RelationExpr::typ`).  The Rust function can
panic — on the `assert!`s of the `Constant`, `OrDefault` and `Union` arms and
on out-of-range indexing in the `Project` and `Reduce` arms — which the
embedding models as `none`. -/
def RelationExpr.typ : RelationExpr → Option RelationType
  | .Constant rows typ =>
      if rows.all (fun row =>
          (row.zip typ.column_types).all fun p => p.1.is_instance_of p.2)
      then some typ else none
  | .Get _ typ => some typ
  | .Let _ _ body => RelationExpr.typ body
  | .Project input outputs => do
      let t ← RelationExpr.typ input
      let cols ← selectCols t.column_types outputs
      some ⟨cols⟩
  | .Map input scalars => do
      let t ← RelationExpr.typ input
      some ⟨t.column_types ++ scalars.map (·.2)⟩
  | .Filter input _ => RelationExpr.typ input
  | .Join inputs _ => do
      let cols ← RelationExpr.typList inputs
      some ⟨cols⟩
  | .Reduce input group_key aggregates => do
      let t ← RelationExpr.typ input
      let key ← selectCols t.column_types group_key
      some ⟨key ++ aggregates.map (·.2)⟩
  | .TopK input _ _ _ => RelationExpr.typ input
  | .OrDefault input dflt => do
      let t ← RelationExpr.typ input
      if (t.column_types.zip dflt).all
          (fun p => p.2.scalar_type.is_instance_of p.1)
      then some t else none
  | .Negate input => RelationExpr.typ input
  | .Distinct input => RelationExpr.typ input
  | .Union left right => do
      let tl ← RelationExpr.typ left
      let tr ← RelationExpr.typ right
      if tl.column_types.length = tr.column_types.length then do
        let cols ← joinCols (tl.column_types.zip tr.column_types)
        some ⟨cols⟩
      else none

/-- Concatenation of the column types of a list of inputs
(the loop of the `Join` arm of `RelationExpr::typ`). -/
def RelationExpr.typList : List RelationExpr → Option (List ColumnType)
  | [] => some []
  | e :: es => do
      let t ← RelationExpr.typ e
      let rest ← RelationExpr.typList es
      some (t.column_types ++ rest)

end

/-- Arity (types.rs, `RelationExpr::arity`): the length of the derived
column-type list (when derivation does not panic). -/
def RelationExpr.arity (e : RelationExpr) : Option Nat :=
  e.typ.map (·.column_types.length)

mutual

/-- Modelled from the spec: the pre-order subterm enumeration realized by the
`visit` primitive ("applies a callback to every RelationExpr subterm in
pre-order", §4.1); `visit` itself lives outside the provided sources.  Each
node is listed before its children, children in field order. -/
def RelationExpr.subterms : RelationExpr → List RelationExpr
  | .Constant rows typ => [.Constant rows typ]
  | .Get n t => [.Get n t]
  | .Let n v b => .Let n v b :: (RelationExpr.subterms v ++ RelationExpr.subterms b)
  | .Project i o => .Project i o :: RelationExpr.subterms i
  | .Map i s => .Map i s :: RelationExpr.subterms i
  | .Filter i p => .Filter i p :: RelationExpr.subterms i
  | .Join inputs vs => .Join inputs vs :: RelationExpr.subtermsList inputs
  | .Reduce i g a => .Reduce i g a :: RelationExpr.subterms i
  | .TopK i g o l => .TopK i g o l :: RelationExpr.subterms i
  | .OrDefault i d => .OrDefault i d :: RelationExpr.subterms i
  | .Negate i => .Negate i :: RelationExpr.subterms i
  | .Distinct i => .Distinct i :: RelationExpr.subterms i
  | .Union l r => .Union l r :: (RelationExpr.subterms l ++ RelationExpr.subterms r)

/-- Pre-order subterms of a list of expressions, in list order. -/
def RelationExpr.subtermsList : List RelationExpr → List RelationExpr
  | [] => []
  | e :: es => RelationExpr.subterms e ++ RelationExpr.subtermsList es

end

/-- The name carried by a `Get` node, if any (the pattern of the callback in
`RelationExpr::uses_inner`). -/
def RelationExpr.get_name : RelationExpr → Option String
  | .Get n _ => some n
  | _ => none

/-- Collects the names of the dataflows this expression depends upon
(types.rs, `RelationExpr::uses_inner`): visit every subterm in pre-order and
push the name of every `Get`. -/
def RelationExpr.uses_inner (e : RelationExpr) : List String :=
  e.subterms.filterMap RelationExpr.get_name

/-- Collects the names of the dataflows that this dataflow depends upon
(types.rs, `Dataflow::uses`). -/
def Dataflow.uses : Dataflow → List String
  | .Source _ => []
  | .Sink k => [k.«from».1]
  | .View v => v.relation_expr.uses_inner

mutual

/-- Specification-side dependency list: the names of all `Get` nodes of an
expression, written by direct structural recursion in pre-order, duplicates
kept and `Let`-bound names not filtered (§4.1, dependency extraction). -/
def RelationExpr.getNames : RelationExpr → List String
  | .Constant _ _ => []
  | .Get n _ => [n]
  | .Let _ v b => RelationExpr.getNames v ++ RelationExpr.getNames b
  | .Project i _ => RelationExpr.getNames i
  | .Map i _ => RelationExpr.getNames i
  | .Filter i _ => RelationExpr.getNames i
  | .Join inputs _ => RelationExpr.getNamesList inputs
  | .Reduce i _ _ => RelationExpr.getNames i
  | .TopK i _ _ _ => RelationExpr.getNames i
  | .OrDefault i _ => RelationExpr.getNames i
  | .Negate i => RelationExpr.getNames i
  | .Distinct i => RelationExpr.getNames i
  | .Union l r => RelationExpr.getNames l ++ RelationExpr.getNames r

/-- Specification-side dependency list of a list of expressions. -/
def RelationExpr.getNamesList : List RelationExpr → List String
  | [] => []
  | e :: es => RelationExpr.getNames e ++ RelationExpr.getNamesList es

end

/-- Modelled from the spec: serde's encoding of an unsigned integer. -/
def encodeNat (n : Nat) : Json := .num (n : Int)

/-- Modelled from the spec: serde's encoding of a `Vec`, element-wise. -/
def encList (f : α → Json) (l : List α) : Json := .arr (l.map f)

/-- Modelled from the spec: serde's encoding of a two-tuple, as a
two-element array. -/
def encPair (f : α → Json) (g : β → Json) (p : α × β) : Json :=
  .arr [f p.1, g p.2]

/-- Modelled from the spec: decoding of an unsigned integer. -/
def decodeNat : Json → Option Nat
  | .num n => if 0 ≤ n then some n.toNat else none
  | _ => none

/-- Modelled from the spec: decoding of a signed integer. -/
def decodeInt : Json → Option Int
  | .num n => some n
  | _ => none

/-- Element-wise decoding of a list of JSON values. -/
def decListGo (f : Json → Option α) : List Json → Option (List α)
  | [] => some []
  | j :: js => do
      let a ← f j
      let as ← decListGo f js
      some (a :: as)

/-- Modelled from the spec: decoding of a `Vec`, element-wise. -/
def decList (f : Json → Option α) : Json → Option (List α)
  | .arr js => decListGo f js
  | _ => none

/-- Modelled from the spec: decoding of a two-tuple. -/
def decPair (f : Json → Option α) (g : Json → Option β) : Json → Option (α × β)
  | .arr [ja, jb] => do
      let a ← f ja
      let b ← g jb
      some (a, b)
  | _ => none

/-- Modelled from the spec: decoding of an optional string
(`name?` of a column type, §6). -/
def decodeOptStr : Json → Option (Option String)
  | .null => some none
  | .str s => some (some s)
  | _ => none

/-- Modelled from the spec: scalar types "serialize by their
lowercase-snake-case variant names" (§6). -/
def encodeScalarType : ScalarType → Json
  | .null => .str "null"
  | .bool => .str "bool"
  | .int32 => .str "int32"
  | .string => .str "string"

/-- Modelled from the spec: inverse of `encodeScalarType`. -/
def decodeScalarType : Json → Option ScalarType
  | .str "null" => some .null
  | .str "bool" => some .bool
  | .str "int32" => some .int32
  | .str "string" => some .string
  | _ => none

/-- Modelled from the spec: serde-derived tagged-union encoding of `Datum`
(§4.3); unit variants encode as their snake-case name, payload variants as a
single-key object. -/
def encodeDatum : Datum → Json
  | .Null => .str "null"
  | .False => .str "false"
  | .True => .str "true"
  | .Int32 i => .obj [("int32", .num i)]
  | .String s => .obj [("string", .str s)]

/-- Modelled from the spec: inverse of `encodeDatum`. -/
def decodeDatum : Json → Option Datum
  | .str "null" => some .Null
  | .str "false" => some .False
  | .str "true" => some .True
  | .obj [("int32", .num i)] => some (.Int32 i)
  | .obj [("string", .str s)] => some (.String s)
  | _ => none

/-- Modelled from the spec: column types "serialize as
{ name?, nullable, scalar_type }" (§6). -/
def encodeColumnType (ct : ColumnType) : Json :=
  .obj [("name", match ct.name with | none => .null | some s => .str s),
        ("nullable", .bool ct.nullable),
        ("scalar_type", encodeScalarType ct.scalar_type)]

/-- Modelled from the spec: inverse of `encodeColumnType`. -/
def decodeColumnType : Json → Option ColumnType
  | .obj [("name", jn), ("nullable", .bool b), ("scalar_type", jst)] => do
      let n ← decodeOptStr jn
      let st ← decodeScalarType jst
      some ⟨n, b, st⟩
  | _ => none

/-- Modelled from the spec: serde-derived encoding of `RelationType`
(snake-case field keys, §4.3). -/
def encodeRelationType (rt : RelationType) : Json :=
  .obj [("column_types", encList encodeColumnType rt.column_types)]

/-- Modelled from the spec: inverse of `encodeRelationType`. -/
def decodeRelationType : Json → Option RelationType
  | .obj [("column_types", jl)] => (decList decodeColumnType jl).map RelationType.mk
  | _ => none

/-- Modelled from the spec: function kinds "serialize by their
lowercase-snake-case variant names" (§6). -/
def encodeUnaryFunc : UnaryFunc → Json
  | .not => .str "not"
  | .neg_int32 => .str "neg_int32"

/-- Modelled from the spec: inverse of `encodeUnaryFunc`. -/
def decodeUnaryFunc : Json → Option UnaryFunc
  | .str "not" => some .not
  | .str "neg_int32" => some .neg_int32
  | _ => none

/-- Modelled from the spec: binary function kinds serialize by
snake-case variant name (§6). -/
def encodeBinaryFunc : BinaryFunc → Json
  | .add_int32 => .str "add_int32"
  | .eq => .str "eq"

/-- Modelled from the spec: inverse of `encodeBinaryFunc`. -/
def decodeBinaryFunc : Json → Option BinaryFunc
  | .str "add_int32" => some .add_int32
  | .str "eq" => some .eq
  | _ => none

/-- Modelled from the spec: variadic function kinds serialize by
snake-case variant name (§6). -/
def encodeVariadicFunc : VariadicFunc → Json
  | .coalesce => .str "coalesce"
  | .concat => .str "concat"

/-- Modelled from the spec: inverse of `encodeVariadicFunc`. -/
def decodeVariadicFunc : Json → Option VariadicFunc
  | .str "coalesce" => some .coalesce
  | .str "concat" => some .concat
  | _ => none

/-- Modelled from the spec: aggregate function kinds serialize by
snake-case variant name (§6). -/
def encodeAggregateFunc : AggregateFunc → Json
  | .sum_int32 => .str "sum_int32"
  | .count => .str "count"

/-- Modelled from the spec: inverse of `encodeAggregateFunc`. -/
def decodeAggregateFunc : Json → Option AggregateFunc
  | .str "sum_int32" => some .sum_int32
  | .str "count" => some .count
  | _ => none

mutual

/-- Modelled from the spec: serde-derived encoding of `ScalarExpr`, whose
enum carries `rename_all = "snake_case"` in the source: an externally tagged
union with snake-case discriminants and snake-case field keys. -/
def encodeScalarExpr : ScalarExpr → Json
  | .Column i => .obj [("column", encodeNat i)]
  | .Literal d => .obj [("literal", encodeDatum d)]
  | .CallUnary f e =>
      .obj [("call_unary", .obj [("func", encodeUnaryFunc f),
                                 ("expr", encodeScalarExpr e)])]
  | .CallBinary f e1 e2 =>
      .obj [("call_binary", .obj [("func", encodeBinaryFunc f),
                                  ("expr1", encodeScalarExpr e1),
                                  ("expr2", encodeScalarExpr e2)])]
  | .CallVariadic f es =>
      .obj [("call_variadic", .obj [("func", encodeVariadicFunc f),
                                    ("exprs", .arr (encodeScalarExprList es))])]
  | .If c t e =>
      .obj [("if", .obj [("cond", encodeScalarExpr c),
                         ("then", encodeScalarExpr t),
                         ("els", encodeScalarExpr e)])]

/-- Element-wise encoding of a list of scalar expressions. -/
def encodeScalarExprList : List ScalarExpr → List Json
  | [] => []
  | e :: es => encodeScalarExpr e :: encodeScalarExprList es

end

mutual

/-- Modelled from the spec: inverse of `encodeScalarExpr`.  Dispatches on
the discriminant of the externally tagged union. -/
def decodeScalarExpr : Json → Option ScalarExpr
  | .obj [(tag, p)] =>
      if tag = "column" then (decodeNat p).map .Column
      else if tag = "literal" then (decodeDatum p).map .Literal
      else if tag = "call_unary" then decodeCallUnaryArm p
      else if tag = "call_binary" then decodeCallBinaryArm p
      else if tag = "call_variadic" then decodeCallVariadicArm p
      else if tag = "if" then decodeIfArm p
      else none
  | _ => none

/-- Payload decoder for the `call_unary` discriminant. -/
def decodeCallUnaryArm : Json → Option ScalarExpr
  | .obj [("func", jf), ("expr", je)] => do
      let f ← decodeUnaryFunc jf
      let e ← decodeScalarExpr je
      some (.CallUnary f e)
  | _ => none

/-- Payload decoder for the `call_binary` discriminant. -/
def decodeCallBinaryArm : Json → Option ScalarExpr
  | .obj [("func", jf), ("expr1", j1), ("expr2", j2)] => do
      let f ← decodeBinaryFunc jf
      let e1 ← decodeScalarExpr j1
      let e2 ← decodeScalarExpr j2
      some (.CallBinary f e1 e2)
  | _ => none

/-- Payload decoder for the `call_variadic` discriminant. -/
def decodeCallVariadicArm : Json → Option ScalarExpr
  | .obj [("func", jf), ("exprs", .arr js)] => do
      let f ← decodeVariadicFunc jf
      let es ← decodeScalarExprList js
      some (.CallVariadic f es)
  | _ => none

/-- Payload decoder for the `if` discriminant. -/
def decodeIfArm : Json → Option ScalarExpr
  | .obj [("cond", jc), ("then", jt), ("els", je)] => do
      let c ← decodeScalarExpr jc
      let t ← decodeScalarExpr jt
      let e ← decodeScalarExpr je
      some (.If c t e)
  | _ => none

/-- Element-wise decoding of a list of scalar expressions. -/
def decodeScalarExprList : List Json → Option (List ScalarExpr)
  | [] => some []
  | j :: js => do
      let e ← decodeScalarExpr j
      let es ← decodeScalarExprList js
      some (e :: es)

end

/-- Modelled from the spec: serde-derived encoding of `AggregateExpr`
(snake-case field keys). -/
def encodeAggregateExpr (a : AggregateExpr) : Json :=
  .obj [("func", encodeAggregateFunc a.func),
        ("expr", encodeScalarExpr a.expr),
        ("distinct", .bool a.distinct)]

/-- Modelled from the spec: inverse of `encodeAggregateExpr`. -/
def decodeAggregateExpr : Json → Option AggregateExpr
  | .obj [("func", jf), ("expr", je), ("distinct", .bool b)] => do
      let f ← decodeAggregateFunc jf
      let e ← decodeScalarExpr je
      some ⟨f, e, b⟩
  | _ => none

mutual

/-- Modelled from the spec: serde-derived encoding of `RelationExpr`, whose
enum carries `rename_all = "snake_case"` in the source: an externally tagged
union with snake-case discriminants (`constant`, `get`, `let`, `project`,
`map`, `filter`, `join`, `reduce`, `top_k`, `or_default`, `negate`,
`distinct`, `union`) and snake-case field keys. -/
def encodeRelationExpr : RelationExpr → Json
  | .Constant rows typ =>
      .obj [("constant", .obj [("rows", encList (encList encodeDatum) rows),
                               ("typ", encodeRelationType typ)])]
  | .Get n t =>
      .obj [("get", .obj [("name", .str n), ("typ", encodeRelationType t)])]
  | .Let n v b =>
      .obj [("let", .obj [("name", .str n),
                          ("value", encodeRelationExpr v),
                          ("body", encodeRelationExpr b)])]
  | .Project i o =>
      .obj [("project", .obj [("input", encodeRelationExpr i),
                              ("outputs", encList encodeNat o)])]
  | .Map i s =>
      .obj [("map", .obj [("input", encodeRelationExpr i),
                          ("scalars",
                           encList (encPair encodeScalarExpr encodeColumnType) s)])]
  | .Filter i p =>
      .obj [("filter", .obj [("input", encodeRelationExpr i),
                             ("predicates", encList encodeScalarExpr p)])]
  | .Join is vs =>
      .obj [("join", .obj [("inputs", .arr (encodeRelationExprList is)),
                           ("variables",
                            encList (encList (encPair encodeNat encodeNat)) vs)])]
  | .Reduce i g a =>
      .obj [("reduce", .obj [("input", encodeRelationExpr i),
                             ("group_key", encList encodeNat g),
                             ("aggregates",
                              encList (encPair encodeAggregateExpr encodeColumnType) a)])]
  | .TopK i g o l =>
      .obj [("top_k", .obj [("input", encodeRelationExpr i),
                            ("group_key", encList encodeNat g),
                            ("order_key", encList encodeNat o),
                            ("limit", encodeNat l)])]
  | .OrDefault i d =>
      .obj [("or_default", .obj [("input", encodeRelationExpr i),
                                 ("default", encList encodeDatum d)])]
  | .Negate i => .obj [("negate", .obj [("input", encodeRelationExpr i)])]
  | .Distinct i => .obj [("distinct", .obj [("input", encodeRelationExpr i)])]
  | .Union l r =>
      .obj [("union", .obj [("left", encodeRelationExpr l),
                            ("right", encodeRelationExpr r)])]

/-- Element-wise encoding of a list of relation expressions. -/
def encodeRelationExprList : List RelationExpr → List Json
  | [] => []
  | e :: es => encodeRelationExpr e :: encodeRelationExprList es

end

/-- Payload decoder for the `constant` discriminant. -/
def decodeConstantArm : Json → Option RelationExpr
  | .obj [("rows", jr), ("typ", jt)] => do
      let rows ← decList (decList decodeDatum) jr
      let t ← decodeRelationType jt
      some (.Constant rows t)
  | _ => none

/-- Payload decoder for the `get` discriminant. -/
def decodeGetArm : Json → Option RelationExpr
  | .obj [("name", .str n), ("typ", jt)] => do
      let t ← decodeRelationType jt
      some (.Get n t)
  | _ => none

/-- Payload decoder for the `let` discriminant, relative to a decoder `rec`
for the recursive positions. -/
def decodeLetArm (rec : Json → Option RelationExpr) : Json → Option RelationExpr
  | .obj [("name", .str n), ("value", jv), ("body", jb)] => do
      let v ← rec jv
      let b ← rec jb
      some (.Let n v b)
  | _ => none

/-- Payload decoder for the `project` discriminant. -/
def decodeProjectArm (rec : Json → Option RelationExpr) : Json → Option RelationExpr
  | .obj [("input", ji), ("outputs", jo)] => do
      let i ← rec ji
      let o ← decList decodeNat jo
      some (.Project i o)
  | _ => none

/-- Payload decoder for the `map` discriminant. -/
def decodeMapArm (rec : Json → Option RelationExpr) : Json → Option RelationExpr
  | .obj [("input", ji), ("scalars", js)] => do
      let i ← rec ji
      let s ← decList (decPair decodeScalarExpr decodeColumnType) js
      some (.Map i s)
  | _ => none

/-- Payload decoder for the `filter` discriminant. -/
def decodeFilterArm (rec : Json → Option RelationExpr) : Json → Option RelationExpr
  | .obj [("input", ji), ("predicates", jp)] => do
      let i ← rec ji
      let p ← decList decodeScalarExpr jp
      some (.Filter i p)
  | _ => none

/-- Payload decoder for the `join` discriminant. -/
def decodeJoinArm (rec : Json → Option RelationExpr) : Json → Option RelationExpr
  | .obj [("inputs", .arr js), ("variables", jv)] => do
      let is ← decListGo rec js
      let vs ← decList (decList (decPair decodeNat decodeNat)) jv
      some (.Join is vs)
  | _ => none

/-- Payload decoder for the `reduce` discriminant. -/
def decodeReduceArm (rec : Json → Option RelationExpr) : Json → Option RelationExpr
  | .obj [("input", ji), ("group_key", jg), ("aggregates", ja)] => do
      let i ← rec ji
      let g ← decList decodeNat jg
      let a ← decList (decPair decodeAggregateExpr decodeColumnType) ja
      some (.Reduce i g a)
  | _ => none

/-- Payload decoder for the `top_k` discriminant. -/
def decodeTopKArm (rec : Json → Option RelationExpr) : Json → Option RelationExpr
  | .obj [("input", ji), ("group_key", jg), ("order_key", jo), ("limit", jl)] => do
      let i ← rec ji
      let g ← decList decodeNat jg
      let o ← decList decodeNat jo
      let l ← decodeNat jl
      some (.TopK i g o l)
  | _ => none

/-- Payload decoder for the `or_default` discriminant. -/
def decodeOrDefaultArm (rec : Json → Option RelationExpr) : Json → Option RelationExpr
  | .obj [("input", ji), ("default", jd)] => do
      let i ← rec ji
      let d ← decList decodeDatum jd
      some (.OrDefault i d)
  | _ => none

/-- Payload decoder for the `negate` discriminant. -/
def decodeNegateArm (rec : Json → Option RelationExpr) : Json → Option RelationExpr
  | .obj [("input", ji)] => do
      let i ← rec ji
      some (.Negate i)
  | _ => none

/-- Payload decoder for the `distinct` discriminant. -/
def decodeDistinctArm (rec : Json → Option RelationExpr) : Json → Option RelationExpr
  | .obj [("input", ji)] => do
      let i ← rec ji
      some (.Distinct i)
  | _ => none

/-- Payload decoder for the `union` discriminant. -/
def decodeUnionArm (rec : Json → Option RelationExpr) : Json → Option RelationExpr
  | .obj [("left", jl), ("right", jr)] => do
      let l ← rec jl
      let r ← rec jr
      some (.Union l r)
  | _ => none

/-- One layer of the `RelationExpr` decoder: dispatch on the discriminant of
the externally tagged union, decoding recursive positions with `rec`. -/
def decodeREStep (rec : Json → Option RelationExpr) : Json → Option RelationExpr
  | .obj [(tag, p)] =>
      if tag = "constant" then decodeConstantArm p
      else if tag = "get" then decodeGetArm p
      else if tag = "let" then decodeLetArm rec p
      else if tag = "project" then decodeProjectArm rec p
      else if tag = "map" then decodeMapArm rec p
      else if tag = "filter" then decodeFilterArm rec p
      else if tag = "join" then decodeJoinArm rec p
      else if tag = "reduce" then decodeReduceArm rec p
      else if tag = "top_k" then decodeTopKArm rec p
      else if tag = "or_default" then decodeOrDefaultArm rec p
      else if tag = "distinct" then decodeDistinctArm rec p
      else if tag = "negate" then decodeNegateArm rec p
      else if tag = "union" then decodeUnionArm rec p
      else none
  | _ => none

/-- Fuelled iteration of `decodeREStep`; any fuel at least the nesting depth
of the value behaves like the untruncated decoder. -/
def decodeREFuel : Nat → Json → Option RelationExpr
  | 0 => fun _ => none
  | fuel + 1 => decodeREStep (decodeREFuel fuel)

mutual

/-- Structural size of a JSON value, used as decoding fuel. -/
def jsonSize : Json → Nat
  | .null => 1
  | .bool _ => 1
  | .num _ => 1
  | .str _ => 1
  | .arr js => 1 + jsonSizeList js
  | .obj kvs => 1 + jsonSizeKVList kvs

/-- Structural size of a list of JSON values. -/
def jsonSizeList : List Json → Nat
  | [] => 0
  | j :: js => 1 + jsonSize j + jsonSizeList js

/-- Structural size of a list of key/value pairs. -/
def jsonSizeKVList : List (String × Json) → Nat
  | [] => 0
  | (_, j) :: t => 1 + jsonSize j + jsonSizeKVList t

end

/-- Modelled from the spec: inverse of `encodeRelationExpr`.  The size of the
input bounds its nesting depth, so it is enough fuel. -/
def decodeRelationExpr (j : Json) : Option RelationExpr :=
  decodeREFuel (jsonSize j) j

/-- Modelled from the spec: a socket address serializes as its display
string. -/
def encodeSocketAddr (a : SocketAddr) : Json := .str a.addr

/-- Modelled from the spec: inverse of `encodeSocketAddr`. -/
def decodeSocketAddr : Json → Option SocketAddr
  | .str s => some ⟨s⟩
  | _ => none

/-- Modelled from the spec: `url_serde` encoding of an optional URL —
`null` or the URL string. -/
def encodeOptUrl : Option Url → Json
  | none => .null
  | some u => .str u.url

/-- Modelled from the spec: inverse of `encodeOptUrl`. -/
def decodeOptUrl : Json → Option (Option Url)
  | .null => some none
  | .str s => some (some ⟨s⟩)
  | _ => none

/-- Modelled from the spec: serde-derived encoding of
`KafkaSourceConnector` (field keys in declaration order). -/
def encodeKafkaSourceConnector (c : KafkaSourceConnector) : Json :=
  .obj [("addr", encodeSocketAddr c.addr),
        ("topic", .str c.topic),
        ("raw_schema", .str c.raw_schema),
        ("schema_registry_url", encodeOptUrl c.schema_registry_url)]

/-- Modelled from the spec: inverse of `encodeKafkaSourceConnector`. -/
def decodeKafkaSourceConnector : Json → Option KafkaSourceConnector
  | .obj [("addr", ja), ("topic", .str t), ("raw_schema", .str rs),
          ("schema_registry_url", ju)] => do
      let a ← decodeSocketAddr ja
      let u ← decodeOptUrl ju
      some ⟨a, t, rs, u⟩
  | _ => none

/-- Modelled from the spec: serde-derived encoding of
`SourceConnector`.  The enum has no `rename_all` attribute in the source, so
serde's default applies: discriminants are the verbatim variant names
`Kafka` and `Local`. -/
def encodeSourceConnector : SourceConnector → Json
  | .Kafka c => .obj [("Kafka", encodeKafkaSourceConnector c)]
  | .Local _ => .obj [("Local", .obj [])]

/-- Modelled from the spec: inverse of `encodeSourceConnector`. -/
def decodeSourceConnector : Json → Option SourceConnector
  | .obj [("Kafka", jc)] => (decodeKafkaSourceConnector jc).map .Kafka
  | .obj [("Local", .obj [])] => some (.Local ⟨⟩)
  | _ => none

/-- Modelled from the spec: serde-derived encoding of
`KafkaSinkConnector`. -/
def encodeKafkaSinkConnector (c : KafkaSinkConnector) : Json :=
  .obj [("addr", encodeSocketAddr c.addr),
        ("topic", .str c.topic),
        ("schema_id", .num c.schema_id)]

/-- Modelled from the spec: inverse of `encodeKafkaSinkConnector`. -/
def decodeKafkaSinkConnector : Json → Option KafkaSinkConnector
  | .obj [("addr", ja), ("topic", .str t), ("schema_id", .num i)] => do
      let a ← decodeSocketAddr ja
      some ⟨a, t, i⟩
  | _ => none

/-- Modelled from the spec: serde-derived encoding of `SinkConnector`.  As
for `SourceConnector`, no `rename_all` attribute is present, so the
discriminant is the verbatim variant name `Kafka`. -/
def encodeSinkConnector : SinkConnector → Json
  | .Kafka c => .obj [("Kafka", encodeKafkaSinkConnector c)]

/-- Modelled from the spec: inverse of `encodeSinkConnector`. -/
def decodeSinkConnector : Json → Option SinkConnector
  | .obj [("Kafka", jc)] => (decodeKafkaSinkConnector jc).map .Kafka
  | _ => none

/-- Modelled from the spec: serde-derived encoding of `Source`. -/
def encodeSource (s : Source) : Json :=
  .obj [("name", .str s.name),
        ("connector", encodeSourceConnector s.connector),
        ("typ", encodeRelationType s.typ)]

/-- Modelled from the spec: inverse of `encodeSource`. -/
def decodeSource : Json → Option Source
  | .obj [("name", .str n), ("connector", jc), ("typ", jt)] => do
      let c ← decodeSourceConnector jc
      let t ← decodeRelationType jt
      some ⟨n, c, t⟩
  | _ => none

/-- Modelled from the spec: serde-derived encoding of `Sink`; the `from`
tuple encodes as a two-element array. -/
def encodeSink (k : Sink) : Json :=
  .obj [("name", .str k.name),
        ("from", .arr [.str k.«from».1, encodeRelationType k.«from».2]),
        ("connector", encodeSinkConnector k.connector)]

/-- Modelled from the spec: inverse of `encodeSink`. -/
def decodeSink : Json → Option Sink
  | .obj [("name", .str n), ("from", .arr [.str fn, jt]), ("connector", jc)] => do
      let t ← decodeRelationType jt
      let c ← decodeSinkConnector jc
      some ⟨n, (fn, t), c⟩
  | _ => none

/-- Modelled from the spec: serde-derived encoding of `View`.  Plain field
encoding; no relation between `typ` and `relation_expr` is checked. -/
def encodeView (v : View) : Json :=
  .obj [("name", .str v.name),
        ("relation_expr", encodeRelationExpr v.relation_expr),
        ("typ", encodeRelationType v.typ)]

/-- Modelled from the spec: inverse of `encodeView`.  Decoding validates
nothing beyond the shape of the payload. -/
def decodeView : Json → Option View
  | .obj [("name", .str n), ("relation_expr", je), ("typ", jt)] => do
      let e ← decodeRelationExpr je
      let t ← decodeRelationType jt
      some ⟨n, e, t⟩
  | _ => none

/-- Modelled from the spec: serde-derived encoding of `Dataflow`, whose enum
carries `rename_all = "snake_case"` in the source: discriminants `source`,
`sink`, `view`. -/
def encodeDataflow : Dataflow → Json
  | .Source s => .obj [("source", encodeSource s)]
  | .Sink k => .obj [("sink", encodeSink k)]
  | .View v => .obj [("view", encodeView v)]

/-- Modelled from the spec: inverse of `encodeDataflow`. -/
def decodeDataflow : Json → Option Dataflow
  | .obj [("source", js)] => (decodeSource js).map .Source
  | .obj [("sink", jk)] => (decodeSink jk).map .Sink
  | .obj [("view", jv)] => (decodeView jv).map .View
  | _ => none

/-- The discriminant of an externally tagged union value: the key of a
single-key object. -/
def Json.discriminant : Json → Option String
  | .obj [(k, _)] => some k
  | _ => none

/-- The field keys of an encoded struct, in order. -/
def Json.objKeys : Json → Option (List String)
  | .obj l => some (l.map (·.1))
  | _ => none

/-- One more than the largest value of a Rust `u64`. -/
def u64Bound : Nat := 18446744073709551616

/-- Modelled from the spec: the compute instance identifier consumed by the
orchestrator (`ComputeInstanceId`, defined outside the provided sources).
Per the name grammar of §6 it renders as `u<n>` for user instances and
`s<n>` for system instances, with a `u64` payload. -/
inductive ComputeInstanceId where
  | User (n : Fin u64Bound)
  | System (n : Fin u64Bound)
deriving DecidableEq

/-- Modelled from the spec: the replica identifier consumed by the
orchestrator (`ReplicaId`, defined outside the provided sources): a `u64`,
rendered in decimal. -/
abbrev ReplicaId := Fin u64Bound

/-- Decimal digit character for a value below ten. -/
def digitChar : Nat → Char
  | 0 => '0'
  | 1 => '1'
  | 2 => '2'
  | 3 => '3'
  | 4 => '4'
  | 5 => '5'
  | 6 => '6'
  | 7 => '7'
  | 8 => '8'
  | _ => '9'

/-- Decimal digits of a natural number, most significant first; fuelled so
that it is structurally recursive (any fuel above the value is enough). -/
def digitsOfAux : Nat → Nat → List Char
  | 0, _ => []
  | fuel + 1, n =>
      if n < 10 then [digitChar n]
      else digitsOfAux fuel (n / 10) ++ [digitChar (n % 10)]

/-- Decimal digits of a natural number, most significant first. -/
def digitsOf (n : Nat) : List Char := digitsOfAux (n + 1) n

/-- Decimal rendering of a natural number (Rust's `Display` for `u64`). -/
def natStr (n : Nat) : String := String.mk (digitsOf n)

/-- Modelled from the spec: `Display` of `ComputeInstanceId`, `u<n>` for
user ids and `s<n>` for system ids (§6). -/
def ComputeInstanceId.render : ComputeInstanceId → String
  | .User n => String.mk ('u' :: digitsOf n.val)
  | .System n => String.mk ('s' :: digitsOf n.val)

/-- Deterministically generates replica names based on inputs
(orchestrator.rs, `generate_replica_service_name`):
`format!("cluster-{instance_id}-replica-{replica_id}")`. -/
def generate_replica_service_name (instance_id : ComputeInstanceId)
    (replica_id : ReplicaId) : String :=
  "cluster-" ++ instance_id.render ++ "-replica-" ++ natStr replica_id.val

/-- Removes the literal `lit` from the front of `cs`, or fails. -/
def chopLit : List Char → List Char → Option (List Char)
  | [], cs => some cs
  | _ :: _, [] => none
  | p :: ps, c :: cs => if c = p then chopLit ps cs else none

/-- Numeric value of a list of decimal digit characters (the semantics of
Rust's `str::parse` for an unsigned integer, before the width check). -/
def digitsToNat (l : List Char) : Nat :=
  l.foldl (fun a c => 10 * a + (c.toNat - 48)) 0

/-- Modelled from the spec: the capture groups of the anchored pattern
`^cluster-([us]\d+)-replica-(\d+)$` of orchestrator.rs (the regex engine is
an external crate).  Because neither group can contain `-` and the literal
separators start with non-digits, the regex is equivalent to this
deterministic scan: the literal `cluster-`, one of `u`/`s`, a maximal
non-empty digit run, the literal `-replica-`, and a non-empty digit run
reaching the end.  Returns the tag character and the two digit runs. -/
def capturesAfterTag (c : Char) (rest1 : List Char) :
    Option (Char × List Char × List Char) :=
  if c = 'u' ∨ c = 's' then
    if (rest1.takeWhile Char.isDigit).isEmpty then none
    else
      match chopLit "-replica-".data (rest1.dropWhile Char.isDigit) with
      | none => none
      | some rest3 =>
        if rest3.isEmpty then none
        else if rest3.all Char.isDigit then
          some (c, rest1.takeWhile Char.isDigit, rest3)
        else none
  else none

def serviceNameCapturesL (cs : List Char) : Option (Char × List Char × List Char) :=
  match chopLit "cluster-".data cs with
  | none => none
  | some [] => none
  | some (c :: rest1) => capturesAfterTag c rest1

/-- The capture groups of the service-name pattern, over a string. -/
def serviceNameCaptures (s : String) : Option (Char × List Char × List Char) :=
  serviceNameCapturesL s.data

/-- Outcome of `parse_replica_service_name`: a parsed pair, the recoverable
`anyhow` error, or a panic (the `unwrap` of a failed numeric conversion). -/
inductive ParseOutcome where
  | ok (p : ComputeInstanceId × ReplicaId)
  | err (msg : String)
  | panicked
deriving DecidableEq

/-- Parse a name generated by `generate_replica_service_name`
(orchestrator.rs, `parse_replica_service_name`).  A failed regex match
produces the recoverable error carrying the input; a successful match is
followed by `parse().unwrap()` on both captured groups, so a digit run whose
value does not fit in a `u64` panics instead of returning an error. -/
def parse_replica_service_name (service_name : String) : ParseOutcome :=
  match serviceNameCaptures service_name with
  | none => .err ("invalid service name: " ++ service_name)
  | some (c, ds1, ds2) =>
    let v1 := digitsToNat ds1
    let v2 := digitsToNat ds2
    if h1 : v1 < u64Bound then
      if h2 : v2 < u64Bound then
        .ok (if c = 'u' then .User ⟨v1, h1⟩ else .System ⟨v1, h1⟩, ⟨v2, h2⟩)
      else .panicked
    else .panicked

theorem decodeNat_encodeNat (n : Nat) : decodeNat (encodeNat n) = some n := by
  simp only [encodeNat, decodeNat]
  norm_num

theorem decListGo_map (f : α → Json) (g : Json → Option α)
    (h : ∀ a, g (f a) = some a) (l : List α) :
    decListGo g (l.map f) = some l := by
  induction l with
  | nil => simp [decListGo]
  | cons a l ih => simp [decListGo, h a, ih]

theorem decList_encList (f : α → Json) (g : Json → Option α)
    (h : ∀ a, g (f a) = some a) (l : List α) :
    decList g (encList f l) = some l := by
  simp [encList, decList, decListGo_map f g h]

theorem decPair_encPair (f : α → Json) (f' : Json → Option α)
    (g : β → Json) (g' : Json → Option β)
    (hf : ∀ a, f' (f a) = some a) (hg : ∀ b, g' (g b) = some b) (p : α × β) :
    decPair f' g' (encPair f g p) = some p := by
  simp [encPair, decPair, hf, hg]

theorem decodeScalarType_encode (st : ScalarType) :
    decodeScalarType (encodeScalarType st) = some st := by
  cases st <;> simp [encodeScalarType, decodeScalarType]

theorem decodeDatum_encode (d : Datum) : decodeDatum (encodeDatum d) = some d := by
  cases d <;> simp [encodeDatum, decodeDatum]

theorem decodeOptStr_encode (o : Option String) :
    decodeOptStr (match o with | none => Json.null | some s => Json.str s) = some o := by
  cases o <;> simp [decodeOptStr]

theorem decodeColumnType_encode (ct : ColumnType) :
    decodeColumnType (encodeColumnType ct) = some ct := by
  cases ct with
  | mk n b st =>
      cases n <;>
        simp [encodeColumnType, decodeColumnType, decodeOptStr,
          decodeScalarType_encode st]

theorem decodeRelationType_encode (rt : RelationType) :
    decodeRelationType (encodeRelationType rt) = some rt := by
  cases rt with
  | mk cols =>
      simp [encodeRelationType, decodeRelationType,
        decList_encList _ _ decodeColumnType_encode]

theorem decodeUnaryFunc_encode (f : UnaryFunc) :
    decodeUnaryFunc (encodeUnaryFunc f) = some f := by
  cases f <;> simp [encodeUnaryFunc, decodeUnaryFunc]

theorem decodeBinaryFunc_encode (f : BinaryFunc) :
    decodeBinaryFunc (encodeBinaryFunc f) = some f := by
  cases f <;> simp [encodeBinaryFunc, decodeBinaryFunc]

theorem decodeVariadicFunc_encode (f : VariadicFunc) :
    decodeVariadicFunc (encodeVariadicFunc f) = some f := by
  cases f <;> simp [encodeVariadicFunc, decodeVariadicFunc]

theorem decodeAggregateFunc_encode (f : AggregateFunc) :
    decodeAggregateFunc (encodeAggregateFunc f) = some f := by
  cases f <;> simp [encodeAggregateFunc, decodeAggregateFunc]

set_option maxHeartbeats 1000000

mutual

theorem decodeScalarExpr_encode (e : ScalarExpr) :
    decodeScalarExpr (encodeScalarExpr e) = some e := by
  cases e with
  | Column i =>
      simp [encodeScalarExpr, decodeScalarExpr, decodeNat_encodeNat]
  | Literal d =>
      simp [encodeScalarExpr, decodeScalarExpr, decodeDatum_encode]
  | CallUnary f e =>
      simp [encodeScalarExpr, decodeScalarExpr, decodeCallUnaryArm,
        decodeUnaryFunc_encode, decodeScalarExpr_encode e]
  | CallBinary f e1 e2 =>
      simp [encodeScalarExpr, decodeScalarExpr, decodeCallBinaryArm,
        decodeBinaryFunc_encode, decodeScalarExpr_encode e1,
        decodeScalarExpr_encode e2]
  | CallVariadic f es =>
      simp [encodeScalarExpr, decodeScalarExpr, decodeCallVariadicArm,
        decodeVariadicFunc_encode, decodeScalarExprList_encode es]
  | If c t e =>
      simp [encodeScalarExpr, decodeScalarExpr, decodeIfArm,
        decodeScalarExpr_encode c, decodeScalarExpr_encode t,
        decodeScalarExpr_encode e]

theorem decodeScalarExprList_encode (es : List ScalarExpr) :
    decodeScalarExprList (encodeScalarExprList es) = some es := by
  cases es with
  | nil => simp [encodeScalarExprList, decodeScalarExprList]
  | cons e es =>
      simp [encodeScalarExprList, decodeScalarExprList,
        decodeScalarExpr_encode e, decodeScalarExprList_encode es]

end

theorem decodeAggregateExpr_encode (a : AggregateExpr) :
    decodeAggregateExpr (encodeAggregateExpr a) = some a := by
  cases a with
  | mk f e b =>
      simp [encodeAggregateExpr, decodeAggregateExpr,
        decodeAggregateFunc_encode, decodeScalarExpr_encode e]

theorem decodeRows_encode (rows : List (List Datum)) :
    decList (decList decodeDatum) (encList (encList encodeDatum) rows) = some rows :=
  decList_encList _ _ (decList_encList _ _ decodeDatum_encode) rows

theorem decodeNatList_encode (l : List Nat) :
    decList decodeNat (encList encodeNat l) = some l :=
  decList_encList _ _ decodeNat_encodeNat l

theorem decodeScalarColList_encode (s : List (ScalarExpr × ColumnType)) :
    decList (decPair decodeScalarExpr decodeColumnType)
      (encList (encPair encodeScalarExpr encodeColumnType) s) = some s :=
  decList_encList _ _
    (decPair_encPair _ _ _ _ decodeScalarExpr_encode decodeColumnType_encode) s

theorem decodePredicates_encode (p : List ScalarExpr) :
    decList decodeScalarExpr (encList encodeScalarExpr p) = some p :=
  decList_encList _ _ decodeScalarExpr_encode p

theorem decodeVars_encode (vs : List (List (Nat × Nat))) :
    decList (decList (decPair decodeNat decodeNat))
      (encList (encList (encPair encodeNat encodeNat)) vs) = some vs :=
  decList_encList _ _
    (decList_encList _ _
      (decPair_encPair _ _ _ _ decodeNat_encodeNat decodeNat_encodeNat)) vs

theorem decodeAggColList_encode (a : List (AggregateExpr × ColumnType)) :
    decList (decPair decodeAggregateExpr decodeColumnType)
      (encList (encPair encodeAggregateExpr encodeColumnType) a) = some a :=
  decList_encList _ _
    (decPair_encPair _ _ _ _ decodeAggregateExpr_encode decodeColumnType_encode) a

theorem decodeDatumList_encode (d : List Datum) :
    decList decodeDatum (encList encodeDatum d) = some d :=
  decList_encList _ _ decodeDatum_encode d

mutual

theorem decodeREFuel_encode (e : RelationExpr) :
    ∀ fuel, jsonSize (encodeRelationExpr e) ≤ fuel →
      decodeREFuel fuel (encodeRelationExpr e) = some e := by
  cases e with
  | Constant rows typ =>
      intro fuel h
      simp only [encodeRelationExpr] at h ⊢
      cases fuel with
      | zero => simp [jsonSize] at h
      | succ f =>
          simp [decodeREFuel, decodeREStep, decodeConstantArm,
            decodeRows_encode, decodeRelationType_encode]
  | Get n t =>
      intro fuel h
      simp only [encodeRelationExpr] at h ⊢
      cases fuel with
      | zero => simp [jsonSize] at h
      | succ f =>
          simp [decodeREFuel, decodeREStep, decodeGetArm,
            decodeRelationType_encode]
  | Let n v b =>
      intro fuel h
      simp only [encodeRelationExpr] at h ⊢
      cases fuel with
      | zero => simp [jsonSize] at h
      | succ f =>
          have hv : jsonSize (encodeRelationExpr v) ≤ f := by simp [jsonSize, jsonSizeKVList] at h; omega
          have hb : jsonSize (encodeRelationExpr b) ≤ f := by simp [jsonSize, jsonSizeKVList] at h; omega
          simp [decodeREFuel, decodeREStep, decodeLetArm,
            decodeREFuel_encode v f hv, decodeREFuel_encode b f hb]
  | Project i o =>
      intro fuel h
      simp only [encodeRelationExpr] at h ⊢
      cases fuel with
      | zero => simp [jsonSize] at h
      | succ f =>
          have hi : jsonSize (encodeRelationExpr i) ≤ f := by simp [jsonSize, jsonSizeKVList] at h; omega
          simp [decodeREFuel, decodeREStep, decodeProjectArm,
            decodeREFuel_encode i f hi, decodeNatList_encode]
  | Map i s =>
      intro fuel h
      simp only [encodeRelationExpr] at h ⊢
      cases fuel with
      | zero => simp [jsonSize] at h
      | succ f =>
          have hi : jsonSize (encodeRelationExpr i) ≤ f := by simp [jsonSize, jsonSizeKVList] at h; omega
          simp [decodeREFuel, decodeREStep, decodeMapArm,
            decodeREFuel_encode i f hi, decodeScalarColList_encode]
  | Filter i p =>
      intro fuel h
      simp only [encodeRelationExpr] at h ⊢
      cases fuel with
      | zero => simp [jsonSize] at h
      | succ f =>
          have hi : jsonSize (encodeRelationExpr i) ≤ f := by simp [jsonSize, jsonSizeKVList] at h; omega
          simp [decodeREFuel, decodeREStep, decodeFilterArm,
            decodeREFuel_encode i f hi, decodePredicates_encode]
  | Join is vs =>
      intro fuel h
      simp only [encodeRelationExpr] at h ⊢
      cases fuel with
      | zero => simp [jsonSize] at h
      | succ f =>
          have hi : jsonSizeList (encodeRelationExprList is) ≤ f := by simp [jsonSize, jsonSizeKVList, jsonSizeList] at h; omega
          simp [decodeREFuel, decodeREStep, decodeJoinArm,
            decodeREFuel_encodeList is f hi, decodeVars_encode]
  | Reduce i g a =>
      intro fuel h
      simp only [encodeRelationExpr] at h ⊢
      cases fuel with
      | zero => simp [jsonSize] at h
      | succ f =>
          have hi : jsonSize (encodeRelationExpr i) ≤ f := by simp [jsonSize, jsonSizeKVList] at h; omega
          simp [decodeREFuel, decodeREStep, decodeReduceArm,
            decodeREFuel_encode i f hi, decodeNatList_encode,
            decodeAggColList_encode]
  | TopK i g o l =>
      intro fuel h
      simp only [encodeRelationExpr] at h ⊢
      cases fuel with
      | zero => simp [jsonSize] at h
      | succ f =>
          have hi : jsonSize (encodeRelationExpr i) ≤ f := by simp [jsonSize, jsonSizeKVList] at h; omega
          simp [decodeREFuel, decodeREStep, decodeTopKArm,
            decodeREFuel_encode i f hi, decodeNatList_encode,
            decodeNat_encodeNat]
  | OrDefault i d =>
      intro fuel h
      simp only [encodeRelationExpr] at h ⊢
      cases fuel with
      | zero => simp [jsonSize] at h
      | succ f =>
          have hi : jsonSize (encodeRelationExpr i) ≤ f := by simp [jsonSize, jsonSizeKVList] at h; omega
          simp [decodeREFuel, decodeREStep, decodeOrDefaultArm,
            decodeREFuel_encode i f hi, decodeDatumList_encode]
  | Negate i =>
      intro fuel h
      simp only [encodeRelationExpr] at h ⊢
      cases fuel with
      | zero => simp [jsonSize] at h
      | succ f =>
          have hi : jsonSize (encodeRelationExpr i) ≤ f := by simp [jsonSize, jsonSizeKVList] at h; omega
          simp [decodeREFuel, decodeREStep, decodeNegateArm,
            decodeREFuel_encode i f hi]
  | Distinct i =>
      intro fuel h
      simp only [encodeRelationExpr] at h ⊢
      cases fuel with
      | zero => simp [jsonSize] at h
      | succ f =>
          have hi : jsonSize (encodeRelationExpr i) ≤ f := by simp [jsonSize, jsonSizeKVList] at h; omega
          simp [decodeREFuel, decodeREStep, decodeDistinctArm,
            decodeREFuel_encode i f hi]
  | Union l r =>
      intro fuel h
      simp only [encodeRelationExpr] at h ⊢
      cases fuel with
      | zero => simp [jsonSize] at h
      | succ f =>
          have hl : jsonSize (encodeRelationExpr l) ≤ f := by simp [jsonSize, jsonSizeKVList] at h; omega
          have hr : jsonSize (encodeRelationExpr r) ≤ f := by simp [jsonSize, jsonSizeKVList] at h; omega
          simp [decodeREFuel, decodeREStep, decodeUnionArm,
            decodeREFuel_encode l f hl, decodeREFuel_encode r f hr]

theorem decodeREFuel_encodeList (es : List RelationExpr) :
    ∀ fuel, jsonSizeList (encodeRelationExprList es) ≤ fuel →
      decListGo (decodeREFuel fuel) (encodeRelationExprList es) = some es := by
  cases es with
  | nil => intro fuel h; simp [encodeRelationExprList, decListGo]
  | cons e es =>
      intro fuel h
      simp only [encodeRelationExprList] at h ⊢
      have he : jsonSize (encodeRelationExpr e) ≤ fuel := by simp [jsonSizeList] at h; omega
      have hes : jsonSizeList (encodeRelationExprList es) ≤ fuel := by simp [jsonSizeList] at h; omega
      simp [decListGo, decodeREFuel_encode e fuel he,
        decodeREFuel_encodeList es fuel hes]

end

theorem decodeRelationExpr_encode (e : RelationExpr) :
    decodeRelationExpr (encodeRelationExpr e) = some e :=
  decodeREFuel_encode e _ (le_refl _)

theorem decodeSocketAddr_encode (a : SocketAddr) :
    decodeSocketAddr (encodeSocketAddr a) = some a := by
  cases a
  simp [encodeSocketAddr, decodeSocketAddr]

theorem decodeOptUrl_encode (u : Option Url) :
    decodeOptUrl (encodeOptUrl u) = some u := by
  cases u with
  | none => simp [encodeOptUrl, decodeOptUrl]
  | some v => cases v; simp [encodeOptUrl, decodeOptUrl]

theorem decodeKafkaSourceConnector_encode (c : KafkaSourceConnector) :
    decodeKafkaSourceConnector (encodeKafkaSourceConnector c) = some c := by
  cases c
  simp [encodeKafkaSourceConnector, decodeKafkaSourceConnector,
    decodeSocketAddr_encode, decodeOptUrl_encode]

theorem decodeSourceConnector_encode (c : SourceConnector) :
    decodeSourceConnector (encodeSourceConnector c) = some c := by
  cases c with
  | Kafka k =>
      simp [encodeSourceConnector, decodeSourceConnector,
        decodeKafkaSourceConnector_encode]
  | Local l => cases l; simp [encodeSourceConnector, decodeSourceConnector]

theorem decodeKafkaSinkConnector_encode (c : KafkaSinkConnector) :
    decodeKafkaSinkConnector (encodeKafkaSinkConnector c) = some c := by
  cases c
  simp [encodeKafkaSinkConnector, decodeKafkaSinkConnector,
    decodeSocketAddr_encode]

theorem decodeSinkConnector_encode (c : SinkConnector) :
    decodeSinkConnector (encodeSinkConnector c) = some c := by
  cases c with
  | Kafka k =>
      simp [encodeSinkConnector, decodeSinkConnector,
        decodeKafkaSinkConnector_encode]

theorem decodeSource_encode (s : Source) :
    decodeSource (encodeSource s) = some s := by
  cases s
  simp [encodeSource, decodeSource, decodeSourceConnector_encode,
    decodeRelationType_encode]

theorem decodeSink_encode (k : Sink) :
    decodeSink (encodeSink k) = some k := by
  cases k with
  | mk n f c =>
      cases f
      simp [encodeSink, decodeSink, decodeSinkConnector_encode,
        decodeRelationType_encode]

theorem decodeView_encode (v : View) :
    decodeView (encodeView v) = some v := by
  cases v
  simp [encodeView, decodeView, decodeRelationExpr_encode,
    decodeRelationType_encode]

theorem decodeDataflow_encode (d : Dataflow) :
    decodeDataflow (encodeDataflow d) = some d := by
  cases d with
  | Source s => simp [encodeDataflow, decodeDataflow, decodeSource_encode]
  | Sink k => simp [encodeDataflow, decodeDataflow, decodeSink_encode]
  | View v => simp [encodeDataflow, decodeDataflow, decodeView_encode]

/-- C1: decoding the encoding of any well-formed value of the serialized
types `Dataflow`, `RelationExpr`, `ScalarExpr`, `SourceConnector`,
`SinkConnector` yields a structurally equal value. -/
theorem claim_C1 :
    (∀ d : Dataflow, decodeDataflow (encodeDataflow d) = some d) ∧
    (∀ e : RelationExpr, decodeRelationExpr (encodeRelationExpr e) = some e) ∧
    (∀ s : ScalarExpr, decodeScalarExpr (encodeScalarExpr s) = some s) ∧
    (∀ c : SourceConnector, decodeSourceConnector (encodeSourceConnector c) = some c) ∧
    (∀ c : SinkConnector, decodeSinkConnector (encodeSinkConnector c) = some c) :=
  ⟨decodeDataflow_encode, decodeRelationExpr_encode, decodeScalarExpr_encode,
   decodeSourceConnector_encode, decodeSinkConnector_encode⟩

/-- C2 fails as stated: a `Kafka` source connector encodes under the
discriminant "Kafka" — the `SourceConnector` enum carries no `rename_all`
attribute — not under the lowercase "kafka" the claim requires. -/
theorem claim_C2_counterexample :
    Json.discriminant
        (encodeSourceConnector (.Kafka ⟨⟨"1.2.3.4:9092"⟩, "topic", "schema", none⟩)) =
      some "Kafka" ∧ "Kafka" ≠ "kafka" := by
  constructor
  · rfl
  · decide

/-- C2, amended: the three enums that carry `rename_all = "snake_case"`
(`Dataflow`, `RelationExpr`, `ScalarExpr`) encode every variant under the
lowercase-snake-case form of its name, and struct fields are encoded under
snake_case keys; but `SourceConnector` and `SinkConnector` carry no such
attribute and encode their variants under the verbatim names `Kafka` and
`Local`. -/
theorem claim_C2 :
    (∀ d : Dataflow, Json.discriminant (encodeDataflow d) =
      some (match d with
            | .Source _ => "source" | .Sink _ => "sink" | .View _ => "view")) ∧
    (∀ e : RelationExpr, Json.discriminant (encodeRelationExpr e) =
      some (match e with
            | .Constant _ _ => "constant" | .Get _ _ => "get"
            | .Let _ _ _ => "let" | .Project _ _ => "project"
            | .Map _ _ => "map" | .Filter _ _ => "filter"
            | .Join _ _ => "join" | .Reduce _ _ _ => "reduce"
            | .TopK _ _ _ _ => "top_k" | .OrDefault _ _ => "or_default"
            | .Negate _ => "negate" | .Distinct _ => "distinct"
            | .Union _ _ => "union")) ∧
    (∀ s : ScalarExpr, Json.discriminant (encodeScalarExpr s) =
      some (match s with
            | .Column _ => "column" | .Literal _ => "literal"
            | .CallUnary _ _ => "call_unary" | .CallBinary _ _ _ => "call_binary"
            | .CallVariadic _ _ => "call_variadic" | .If _ _ _ => "if")) ∧
    (∀ c : SourceConnector, Json.discriminant (encodeSourceConnector c) =
      some (match c with | .Kafka _ => "Kafka" | .Local _ => "Local")) ∧
    (∀ c : SinkConnector, Json.discriminant (encodeSinkConnector c) =
      some "Kafka") ∧
    (∀ s : Source, Json.objKeys (encodeSource s) = some ["name", "connector", "typ"]) ∧
    (∀ k : Sink, Json.objKeys (encodeSink k) = some ["name", "from", "connector"]) ∧
    (∀ v : View, Json.objKeys (encodeView v) = some ["name", "relation_expr", "typ"]) ∧
    (∀ c : KafkaSourceConnector, Json.objKeys (encodeKafkaSourceConnector c) =
      some ["addr", "topic", "raw_schema", "schema_registry_url"]) ∧
    (∀ c : KafkaSinkConnector, Json.objKeys (encodeKafkaSinkConnector c) =
      some ["addr", "topic", "schema_id"]) ∧
    (∀ a : AggregateExpr, Json.objKeys (encodeAggregateExpr a) =
      some ["func", "expr", "distinct"]) := by
  refine ⟨?_, ?_, ?_, ?_, ?_, ?_, ?_, ?_, ?_, ?_, ?_⟩
  · intro d; cases d <;> simp [encodeDataflow, Json.discriminant]
  · intro e; cases e <;> simp [encodeRelationExpr, Json.discriminant]
  · intro s; cases s <;> simp [encodeScalarExpr, Json.discriminant]
  · intro c; cases c <;> simp [encodeSourceConnector, Json.discriminant]
  · intro c; cases c; simp [encodeSinkConnector, Json.discriminant]
  · intro s; simp [encodeSource, Json.objKeys]
  · intro k; simp [encodeSink, Json.objKeys]
  · intro v; simp [encodeView, Json.objKeys]
  · intro c; simp [encodeKafkaSourceConnector, Json.objKeys]
  · intro c; simp [encodeKafkaSinkConnector, Json.objKeys]
  · intro a; simp [encodeAggregateExpr, Json.objKeys]

/-- C3 fails as stated: `View` is a plain struct with public fields and a
derived deserializer, so a `View` whose stored `typ` differs from its
expression's derived type is constructible and round-trips through the
serialized form — here a view over an empty-schema constant that stores a
one-column type. -/
theorem claim_C3_counterexample :
    decodeView (encodeView ⟨"v", .Constant [] ⟨[]⟩, ⟨[⟨none, false, .int32⟩]⟩⟩) =
      some ⟨"v", .Constant [] ⟨[]⟩, ⟨[⟨none, false, .int32⟩]⟩⟩ ∧
    RelationExpr.typ (.Constant [] ⟨[]⟩) = some ⟨[]⟩ ∧
    (⟨[⟨none, false, .int32⟩]⟩ : RelationType) ≠ ⟨[]⟩ := by
  refine ⟨decodeView_encode _, ?_, ?_⟩
  · simp [RelationExpr.typ]
  · decide

/-- C3, amended: neither construction nor loading validates any relation
between a `View`'s stored `typ` and its expression's derived type — every
`View` value, matching or not, deserializes from its own encoding unchanged;
in particular a view storing a type different from its expression's derived
type loads successfully. -/
theorem claim_C3 :
    (∀ v : View, decodeView (encodeView v) = some v) ∧
    (RelationExpr.typ (.Constant [] ⟨[]⟩) = some ⟨[]⟩ ∧
     decodeView (encodeView ⟨"w", .Constant [] ⟨[]⟩, ⟨[⟨none, false, .int32⟩]⟩⟩) =
       some ⟨"w", .Constant [] ⟨[]⟩, ⟨[⟨none, false, .int32⟩]⟩⟩) := by
  refine ⟨decodeView_encode, ?_, decodeView_encode _⟩
  simp [RelationExpr.typ]

mutual

theorem subterms_filterMap (e : RelationExpr) :
    (RelationExpr.subterms e).filterMap RelationExpr.get_name = e.getNames := by
  cases e with
  | Constant rows typ =>
      simp [RelationExpr.subterms, RelationExpr.getNames, RelationExpr.get_name]
  | Get n t =>
      simp [RelationExpr.subterms, RelationExpr.getNames, RelationExpr.get_name]
  | Let n v b =>
      simp [RelationExpr.subterms, RelationExpr.getNames, RelationExpr.get_name,
        List.filterMap_append, subterms_filterMap v, subterms_filterMap b]
  | Project i o =>
      simp [RelationExpr.subterms, RelationExpr.getNames, RelationExpr.get_name,
        subterms_filterMap i]
  | Map i s =>
      simp [RelationExpr.subterms, RelationExpr.getNames, RelationExpr.get_name,
        subterms_filterMap i]
  | Filter i p =>
      simp [RelationExpr.subterms, RelationExpr.getNames, RelationExpr.get_name,
        subterms_filterMap i]
  | Join is vs =>
      simp [RelationExpr.subterms, RelationExpr.getNames, RelationExpr.get_name,
        subtermsList_filterMap is]
  | Reduce i g a =>
      simp [RelationExpr.subterms, RelationExpr.getNames, RelationExpr.get_name,
        subterms_filterMap i]
  | TopK i g o l =>
      simp [RelationExpr.subterms, RelationExpr.getNames, RelationExpr.get_name,
        subterms_filterMap i]
  | OrDefault i d =>
      simp [RelationExpr.subterms, RelationExpr.getNames, RelationExpr.get_name,
        subterms_filterMap i]
  | Negate i =>
      simp [RelationExpr.subterms, RelationExpr.getNames, RelationExpr.get_name,
        subterms_filterMap i]
  | Distinct i =>
      simp [RelationExpr.subterms, RelationExpr.getNames, RelationExpr.get_name,
        subterms_filterMap i]
  | Union l r =>
      simp [RelationExpr.subterms, RelationExpr.getNames, RelationExpr.get_name,
        List.filterMap_append, subterms_filterMap l, subterms_filterMap r]

theorem subtermsList_filterMap (es : List RelationExpr) :
    (RelationExpr.subtermsList es).filterMap RelationExpr.get_name =
      RelationExpr.getNamesList es := by
  cases es with
  | nil => simp [RelationExpr.subtermsList, RelationExpr.getNamesList]
  | cons e es =>
      simp [RelationExpr.subtermsList, RelationExpr.getNamesList,
        List.filterMap_append, subterms_filterMap e, subtermsList_filterMap es]

end

theorem uses_inner_eq_getNames (e : RelationExpr) :
    e.uses_inner = e.getNames :=
  subterms_filterMap e

/-- C8: `uses` of a `Source` is empty, of a `Sink` the one-element list with
the upstream name `from.0`, and of a `View` the names of every `Get` in its
expression in pre-order traversal order — duplicates kept and `Let`-bound
names not filtered, as the closing example with a shadowing `Let` over three
occurrences of `Get "x"` shows. -/
theorem claim_C8 :
    (∀ s : Source, (Dataflow.Source s).uses = []) ∧
    (∀ k : Sink, (Dataflow.Sink k).uses = [k.«from».1]) ∧
    (∀ v : View, (Dataflow.View v).uses = v.relation_expr.getNames) ∧
    (Dataflow.View ⟨"w",
        .Let "x" (.Get "x" ⟨[]⟩) (.Union (.Get "x" ⟨[]⟩) (.Get "x" ⟨[]⟩)),
        ⟨[]⟩⟩).uses = ["x", "x", "x"] := by
  refine ⟨?_, ?_, ?_, ?_⟩
  · intro s; simp [Dataflow.uses]
  · intro k; simp [Dataflow.uses]
  · intro v; simp [Dataflow.uses, uses_inner_eq_getNames]
  · simp [Dataflow.uses, uses_inner_eq_getNames, RelationExpr.getNames]

theorem selectCols_of_lt (cols : List ColumnType) (idxs : List Nat)
    (h : ∀ i ∈ idxs, i < cols.length) :
    ∃ out, selectCols cols idxs = some out ∧ out.length = idxs.length ∧
      ∀ j : Nat, out[j]? = idxs[j]?.bind fun i => cols[i]? := by
  induction idxs with
  | nil =>
      refine ⟨[], by simp [selectCols], by simp, ?_⟩
      intro j
      simp
  | cons i is ih =>
      obtain ⟨out, hsel, hlen, hget⟩ := ih (fun x hx => h x (by simp [hx]))
      obtain ⟨c, hc⟩ : ∃ c, cols[i]? = some c :=
        ⟨cols.get ⟨i, h i (by simp)⟩, List.getElem?_eq_getElem (h i (by simp))⟩
      refine ⟨c :: out, ?_, by simp [hlen], ?_⟩
      · simp [selectCols, hc, hsel]
      · intro j
        cases j with
        | zero => simp [hc]
        | succ j => simp [hget j]

theorem joinCols_spec (zl : List (ColumnType × ColumnType)) (out : List ColumnType)
    (h : joinCols zl = some out) :
    out.length = zl.length ∧
      ∀ j : Nat, out[j]? = zl[j]?.bind fun p => p.1.union p.2 := by
  induction zl generalizing out with
  | nil =>
      simp [joinCols] at h
      subst h
      simp
  | cons p ps ih =>
      simp only [joinCols, Option.bind_eq_bind] at h
      cases hu : p.1.union p.2 with
      | none => simp [hu] at h
      | some c =>
          cases hrest : joinCols ps with
          | none => simp [hu, hrest] at h
          | some rest =>
              simp [hu, hrest] at h
              subst h
              obtain ⟨hlen, hget⟩ := ih rest hrest
              refine ⟨by simp [hlen], ?_⟩
              intro j
              cases j with
              | zero => simp [hu]
              | succ j => simp [hget j]

theorem zip_getElem? (l : List α) (r : List β) (j : Nat) :
    (l.zip r)[j]? = l[j]?.bind fun a => r[j]?.map fun b => (a, b) := by
  induction l generalizing r j with
  | nil => simp
  | cons a l ih =>
      cases r with
      | nil => simp
      | cons b r =>
          cases j with
          | zero => simp
          | succ j => simp [ih r j]

/-- C5: type derivation obeys the arity equations — `Project` has arity
`outputs.len()` with columns taken positionally from the input, `Map` appends
the declared scalar column types to the input columns, and `Reduce` has the
positionally selected group-key columns followed by the declared aggregate
column types. -/
theorem claim_C5 :
    (∀ (input : RelationExpr) (ti : RelationType) (outputs : List Nat),
      RelationExpr.typ input = some ti →
      (∀ i ∈ outputs, i < ti.column_types.length) →
      ∃ t, RelationExpr.typ (.Project input outputs) = some t ∧
        t.column_types.length = outputs.length ∧
        ∀ j : Nat, t.column_types[j]? = outputs[j]?.bind fun i => ti.column_types[i]?) ∧
    (∀ (input : RelationExpr) (ti : RelationType)
        (scalars : List (ScalarExpr × ColumnType)),
      RelationExpr.typ input = some ti →
      RelationExpr.typ (.Map input scalars) =
        some ⟨ti.column_types ++ scalars.map (·.2)⟩) ∧
    (∀ (input : RelationExpr) (ti : RelationType) (gk : List Nat)
        (aggs : List (AggregateExpr × ColumnType)),
      RelationExpr.typ input = some ti →
      (∀ i ∈ gk, i < ti.column_types.length) →
      ∃ t, RelationExpr.typ (.Reduce input gk aggs) = some t ∧
        t.column_types.length = gk.length + aggs.length ∧
        (∀ j : Nat, j < gk.length →
          t.column_types[j]? = gk[j]?.bind fun i => ti.column_types[i]?) ∧
        (∀ j : Nat, t.column_types[gk.length + j]? = (aggs.map (·.2))[j]?)) := by
  refine ⟨?_, ?_, ?_⟩
  · intro input ti outputs hin hlt
    obtain ⟨out, hsel, hlen, hget⟩ := selectCols_of_lt ti.column_types outputs hlt
    refine ⟨⟨out⟩, ?_, by simp [hlen], fun j => by simp [hget j]⟩
    simp [RelationExpr.typ, hin, hsel]
  · intro input ti scalars hin
    simp [RelationExpr.typ, hin]
  · intro input ti gk aggs hin hlt
    obtain ⟨key, hsel, hlen, hget⟩ := selectCols_of_lt ti.column_types gk hlt
    refine ⟨⟨key ++ aggs.map (·.2)⟩, ?_, by simp [hlen], ?_, ?_⟩
    · simp [RelationExpr.typ, hin, hsel]
    · intro j hj
      show (key ++ aggs.map (·.2))[j]? = _
      rw [List.getElem?_append, if_pos (show j < key.length by omega)]
      exact hget j
    · intro j
      show (key ++ aggs.map (·.2))[gk.length + j]? = _
      rw [List.getElem?_append, if_neg (show ¬ gk.length + j < key.length by omega),
        hlen, Nat.add_sub_cancel_left]

/-- C6: `Union` requires equal arities (the assertion fails — a panic —
otherwise) and produces the column-wise lattice join, whose nullability is
the disjunction of the operands' nullabilities; the concrete instance is the
union of `Int32 NOT NULL` with `Int32 NULL` yielding `Int32 NULL`. -/
theorem claim_C6 :
    (∀ (l r : RelationExpr) (tl tr : RelationType),
      RelationExpr.typ l = some tl → RelationExpr.typ r = some tr →
      tl.column_types.length ≠ tr.column_types.length →
      RelationExpr.typ (.Union l r) = none) ∧
    (∀ (l r : RelationExpr) (tl tr t : RelationType),
      RelationExpr.typ l = some tl → RelationExpr.typ r = some tr →
      RelationExpr.typ (.Union l r) = some t →
      tl.column_types.length = tr.column_types.length ∧
      t.column_types.length = tl.column_types.length ∧
      ∀ (j : Nat) (cl cr c : ColumnType),
        tl.column_types[j]? = some cl → tr.column_types[j]? = some cr →
        t.column_types[j]? = some c →
        c.nullable = (cl.nullable || cr.nullable) ∧
        c.scalar_type = cl.scalar_type) ∧
    RelationExpr.typ (.Union (.Constant [[.Int32 1]] ⟨[⟨none, false, .int32⟩]⟩)
        (.Constant [[.Null]] ⟨[⟨none, true, .int32⟩]⟩)) =
      some ⟨[⟨none, true, .int32⟩]⟩ := by
  refine ⟨?_, ?_, ?_⟩
  · intro l r tl tr hl hr hne
    simp [RelationExpr.typ, hl, hr, hne]
  · intro l r tl tr t hl hr ht
    simp only [RelationExpr.typ, hl, hr, Option.bind_eq_bind, Option.some_bind] at ht
    by_cases hlen : tl.column_types.length = tr.column_types.length
    · rw [if_pos hlen] at ht
      obtain ⟨cols, hcols, hmk⟩ : ∃ cols,
          joinCols (tl.column_types.zip tr.column_types) = some cols ∧
            RelationType.mk cols = t := by
        cases hj : joinCols (tl.column_types.zip tr.column_types) with
        | none => simp [hj] at ht
        | some cols => exact ⟨cols, rfl, by simpa [hj] using ht⟩
      obtain ⟨hjlen, hjget⟩ := joinCols_spec _ _ hcols
      subst hmk
      refine ⟨hlen, ?_, ?_⟩
      · simp only [hjlen]
        simp [hlen]
      · intro j cl cr c hcl hcr hc
        have hcc : cl.union cr = some c := by
          rw [← hc]
          show cl.union cr = cols[j]?
          rw [hjget j, zip_getElem? tl.column_types tr.column_types j, hcl, hcr]
          rfl
        simp only [ColumnType.union] at hcc
        by_cases hst : cl.scalar_type = cr.scalar_type
        · rw [if_pos hst] at hcc
          injection hcc with h
          rw [← h]
          exact ⟨rfl, rfl⟩
        · rw [if_neg hst] at hcc
          exact absurd hcc (by simp)
    · rw [if_neg hlen] at ht
      simp at ht
  · simp [RelationExpr.typ, Datum.is_instance_of, Datum.scalar_type,
      joinCols, ColumnType.union]

/-- C7 fails as stated: `OrDefault` is not unconditionally type-preserving —
its `typ` asserts that each default datum is compatible with the input
column, so an `OrDefault` over an `Int32 NOT NULL` input with a string
default panics where the input's own `typ` succeeds. -/
theorem claim_C7_counterexample :
    RelationExpr.typ (.OrDefault (.Constant [] ⟨[⟨none, false, .int32⟩]⟩)
        [.String "x"]) = none ∧
    RelationExpr.typ (.Constant [] ⟨[⟨none, false, .int32⟩]⟩) =
      some ⟨[⟨none, false, .int32⟩]⟩ := by
  constructor <;>
    simp [RelationExpr.typ, ScalarType.is_instance_of, Datum.scalar_type]

/-- C7, amended: `Filter`, `TopK`, `Negate` and `Distinct` are
unconditionally type-preserving, and `OrDefault` preserves the input type
exactly when every default datum zipped against the input columns passes the
compatibility assertion (it panics otherwise). -/
theorem claim_C7 :
    (∀ (e : RelationExpr) (p : List ScalarExpr),
      RelationExpr.typ (.Filter e p) = e.typ) ∧
    (∀ (e : RelationExpr) (gk ok : List Nat) (lim : Nat),
      RelationExpr.typ (.TopK e gk ok lim) = e.typ) ∧
    (∀ e : RelationExpr, RelationExpr.typ (.Negate e) = e.typ) ∧
    (∀ e : RelationExpr, RelationExpr.typ (.Distinct e) = e.typ) ∧
    (∀ (e : RelationExpr) (d : List Datum) (t : RelationType),
      RelationExpr.typ e = some t →
      (∀ p ∈ t.column_types.zip d, p.2.scalar_type.is_instance_of p.1 = true) →
      RelationExpr.typ (.OrDefault e d) = some t) := by
  refine ⟨?_, ?_, ?_, ?_, ?_⟩
  · intro e p; simp [RelationExpr.typ]
  · intro e gk ok lim; simp [RelationExpr.typ]
  · intro e; simp [RelationExpr.typ]
  · intro e; simp [RelationExpr.typ]
  · intro e d t ht hcomp
    have hb : (t.column_types.zip d).all
        (fun p => p.2.scalar_type.is_instance_of p.1) = true := by
      simp only [List.all_eq_true]
      exact hcomp
    simp [RelationExpr.typ, ht, hb]

/-- C7 witness: the type-preserving equations applied at concrete inputs,
with the `OrDefault` compatibility hypothesis discharged on an `Int32 0`
default over an `Int32 NOT NULL` input. -/
theorem claim_C7_witness :
    RelationExpr.typ (.Filter (.Get "a" ⟨[]⟩) []) = RelationExpr.typ (.Get "a" ⟨[]⟩) ∧
    RelationExpr.typ (.OrDefault (.Constant [] ⟨[⟨none, false, .int32⟩]⟩)
        [.Int32 0]) = some ⟨[⟨none, false, .int32⟩]⟩ :=
  ⟨claim_C7.1 (.Get "a" ⟨[]⟩) [],
   claim_C7.2.2.2.2 _ _ _ (by simp [RelationExpr.typ]) (by decide)⟩

/-- C9: the datum/column compatibility checks of `Constant` and `OrDefault`
examine only the zipped prefix of the two lists: whenever every zipped pair
is compatible the declared (resp. input) type is returned, with no check at
all on the lengths — the closing instances have a surplus datum, a surplus
column type, and a surplus default datum, and still succeed. -/
theorem claim_C9 :
    (∀ (rows : List (List Datum)) (t : RelationType),
      (∀ row ∈ rows, ∀ p ∈ row.zip t.column_types,
        p.1.is_instance_of p.2 = true) →
      RelationExpr.typ (.Constant rows t) = some t) ∧
    (∀ (input : RelationExpr) (ti : RelationType) (dflt : List Datum),
      RelationExpr.typ input = some ti →
      (∀ p ∈ ti.column_types.zip dflt,
        p.2.scalar_type.is_instance_of p.1 = true) →
      RelationExpr.typ (.OrDefault input dflt) = some ti) ∧
    RelationExpr.typ (.Constant [[.Int32 1, .String "extra"]]
        ⟨[⟨none, false, .int32⟩]⟩) = some ⟨[⟨none, false, .int32⟩]⟩ ∧
    RelationExpr.typ (.Constant [[.Int32 1]]
        ⟨[⟨none, false, .int32⟩, ⟨none, true, .string⟩]⟩) =
      some ⟨[⟨none, false, .int32⟩, ⟨none, true, .string⟩]⟩ ∧
    RelationExpr.typ (.OrDefault (.Constant [] ⟨[⟨none, false, .int32⟩]⟩)
        [.Int32 0, .String "extra"]) = some ⟨[⟨none, false, .int32⟩]⟩ := by
  refine ⟨?_, ?_, ?_, ?_, ?_⟩
  · intro rows t hcomp
    have hb : rows.all (fun row => (row.zip t.column_types).all
        fun p => p.1.is_instance_of p.2) = true := by
      simp only [List.all_eq_true]
      exact hcomp
    simp [RelationExpr.typ, hb]
  · intro input ti dflt hin hcomp
    have hb : (ti.column_types.zip dflt).all
        (fun p => p.2.scalar_type.is_instance_of p.1) = true := by
      simp only [List.all_eq_true]
      exact hcomp
    simp [RelationExpr.typ, hin, hb]
  · simp [RelationExpr.typ, Datum.is_instance_of, Datum.scalar_type]
  · simp [RelationExpr.typ, Datum.is_instance_of, Datum.scalar_type]
  · simp [RelationExpr.typ, ScalarType.is_instance_of, Datum.scalar_type]

/-- C9 witness: the two prefix-check statements applied at concrete
length-mismatched inputs. -/
theorem claim_C9_witness :
    RelationExpr.typ (.Constant [[.Int32 2, .Int32 3]] ⟨[⟨none, false, .int32⟩]⟩) =
      some ⟨[⟨none, false, .int32⟩]⟩ ∧
    RelationExpr.typ (.OrDefault (.Constant [] ⟨[]⟩) [.Int32 0]) = some ⟨[]⟩ :=
  ⟨claim_C9.1 _ _ (by decide),
   claim_C9.2.1 _ _ _ (by simp [RelationExpr.typ]) (by decide)⟩

/-- C5 witness: the three arity equations applied at concrete expressions. -/
theorem claim_C5_witness :
    (∃ t, RelationExpr.typ (.Project
        (.Get "a" ⟨[⟨none, false, .int32⟩, ⟨none, false, .string⟩]⟩) [1, 0, 1]) =
          some t ∧
      t.column_types.length = [1, 0, 1].length ∧
      ∀ j : Nat, t.column_types[j]? = [1, 0, 1][j]?.bind fun i =>
        ([⟨none, false, .int32⟩, ⟨none, false, .string⟩] : List ColumnType)[i]?) ∧
    RelationExpr.typ (.Map (.Get "a" ⟨[⟨none, false, .int32⟩]⟩)
        [(.Column 0, ⟨none, true, .string⟩)]) =
      some ⟨[⟨none, false, .int32⟩] ++ [(ScalarExpr.Column 0,
        (⟨none, true, .string⟩ : ColumnType))].map (·.2)⟩ ∧
    (∃ t, RelationExpr.typ (.Reduce (.Get "a" ⟨[⟨none, false, .int32⟩]⟩) [0]
        [(⟨.count, .Column 0, false⟩, ⟨none, false, .int32⟩)]) = some t ∧
      t.column_types.length = [0].length +
        [((⟨.count, .Column 0, false⟩ : AggregateExpr),
          (⟨none, false, .int32⟩ : ColumnType))].length ∧
      (∀ j : Nat, j < [0].length → t.column_types[j]? = [0][j]?.bind fun i =>
        ([⟨none, false, .int32⟩] : List ColumnType)[i]?) ∧
      (∀ j : Nat, t.column_types[[0].length + j]? =
        ([((⟨.count, .Column 0, false⟩ : AggregateExpr),
           (⟨none, false, .int32⟩ : ColumnType))].map (·.2))[j]?)) :=
  ⟨claim_C5.1 _ _ _ (by simp [RelationExpr.typ]) (by decide),
   claim_C5.2.1 _ _ _ (by simp [RelationExpr.typ]),
   claim_C5.2.2 _ _ _ _ (by simp [RelationExpr.typ]) (by decide)⟩

/-- C6 witness: the arity assertion applied at a concrete mismatched pair
and the lattice join applied at the concrete matched union of constants. -/
theorem claim_C6_witness :
    RelationExpr.typ (.Union (.Get "l" ⟨[⟨none, false, .int32⟩]⟩)
        (.Get "r" ⟨[]⟩)) = none ∧
    ((⟨[⟨none, false, .int32⟩]⟩ : RelationType).column_types.length =
        (⟨[⟨none, true, .int32⟩]⟩ : RelationType).column_types.length ∧
      (⟨[⟨none, true, .int32⟩]⟩ : RelationType).column_types.length =
        (⟨[⟨none, false, .int32⟩]⟩ : RelationType).column_types.length ∧
      ∀ (j : Nat) (cl cr c : ColumnType),
        (⟨[⟨none, false, .int32⟩]⟩ : RelationType).column_types[j]? = some cl →
        (⟨[⟨none, true, .int32⟩]⟩ : RelationType).column_types[j]? = some cr →
        (⟨[⟨none, true, .int32⟩]⟩ : RelationType).column_types[j]? = some c →
        c.nullable = (cl.nullable || cr.nullable) ∧
        c.scalar_type = cl.scalar_type) :=
  ⟨claim_C6.1 (.Get "l" ⟨[⟨none, false, .int32⟩]⟩) (.Get "r" ⟨[]⟩)
      ⟨[⟨none, false, .int32⟩]⟩ ⟨[]⟩
      (by simp [RelationExpr.typ]) (by simp [RelationExpr.typ]) (by decide),
   claim_C6.2.1 (.Constant [[.Int32 1]] ⟨[⟨none, false, .int32⟩]⟩)
      (.Constant [[.Null]] ⟨[⟨none, true, .int32⟩]⟩)
      ⟨[⟨none, false, .int32⟩]⟩ ⟨[⟨none, true, .int32⟩]⟩
      ⟨[⟨none, true, .int32⟩]⟩
      (by simp [RelationExpr.typ, Datum.is_instance_of, Datum.scalar_type])
      (by simp [RelationExpr.typ, Datum.is_instance_of])
      claim_C6.2.2⟩

theorem digitChar_isDigit (n : Nat) (h : n < 10) : (digitChar n).isDigit = true := by
  interval_cases n <;> decide

theorem digitChar_toNat (n : Nat) (h : n < 10) : (digitChar n).toNat = 48 + n := by
  interval_cases n <;> decide

theorem digitsOfAux_ne_nil : ∀ fuel n, n < fuel → digitsOfAux fuel n ≠ [] := by
  intro fuel
  induction fuel with
  | zero => intro n h; omega
  | succ f ih =>
      intro n h
      by_cases h10 : n < 10
      · simp [digitsOfAux, h10]
      · simp [digitsOfAux, h10]

theorem digitsOfAux_digits : ∀ fuel n, n < fuel →
    ∀ c ∈ digitsOfAux fuel n, c.isDigit = true := by
  intro fuel
  induction fuel with
  | zero => intro n h; omega
  | succ f ih =>
      intro n h c hc
      by_cases h10 : n < 10
      · simp [digitsOfAux, h10] at hc
        subst hc
        exact digitChar_isDigit n h10
      · have hdiv : n / 10 < f := by
          have h1 : n / 10 < n := Nat.div_lt_self (by omega) (by omega)
          omega
        simp [digitsOfAux, h10] at hc
        rcases hc with hc | hc
        · exact ih (n / 10) hdiv c hc
        · subst hc
          exact digitChar_isDigit _ (Nat.mod_lt _ (by omega))

theorem digitsOfAux_foldl : ∀ fuel n a, n < fuel →
    (digitsOfAux fuel n).foldl (fun acc c => 10 * acc + (c.toNat - 48)) a =
      a * 10 ^ (digitsOfAux fuel n).length + n := by
  intro fuel
  induction fuel with
  | zero => intro n a h; omega
  | succ f ih =>
      intro n a h
      by_cases h10 : n < 10
      · simp [digitsOfAux, h10, digitChar_toNat n h10, pow_one]
        omega
      · have hdiv : n / 10 < f := by
          have h1 : n / 10 < n := Nat.div_lt_self (by omega) (by omega)
          omega
        simp only [digitsOfAux, if_neg h10]
        rw [List.foldl_append, ih (n / 10) a hdiv]
        simp only [List.foldl_cons, List.foldl_nil, List.length_append,
          List.length_cons, List.length_nil,
          digitChar_toNat (n % 10) (Nat.mod_lt _ (by omega)),
          Nat.add_sub_cancel_left]
        rw [pow_succ, ← mul_assoc]
        generalize a * 10 ^ (digitsOfAux f (n / 10)).length = P
        omega

theorem digitsOf_ne_nil (n : Nat) : digitsOf n ≠ [] :=
  digitsOfAux_ne_nil (n + 1) n (by omega)

theorem digitsOf_digits (n : Nat) : ∀ c ∈ digitsOf n, c.isDigit = true :=
  digitsOfAux_digits (n + 1) n (by omega)

theorem digitsToNat_digitsOf (n : Nat) : digitsToNat (digitsOf n) = n := by
  have h := digitsOfAux_foldl (n + 1) n 0 (by omega)
  simpa [digitsToNat, digitsOf] using h

theorem takeWhile_all_append (p : Char → Bool) :
    ∀ (l : List Char) (c : Char) (r : List Char),
    (∀ x ∈ l, p x = true) → p c = false →
    (l ++ c :: r).takeWhile p = l ∧ (l ++ c :: r).dropWhile p = c :: r := by
  intro l
  induction l with
  | nil =>
      intro c r _ hc
      simp [List.takeWhile_cons, List.dropWhile_cons, hc]
  | cons x xs ih =>
      intro c r hl hc
      have hx : p x = true := hl x (by simp)
      obtain ⟨h1, h2⟩ := ih c r (fun y hy => hl y (by simp [hy])) hc
      simp [List.takeWhile_cons, List.dropWhile_cons, hx, h1, h2]

theorem chopLit_self : ∀ (p r : List Char), chopLit p (p ++ r) = some r := by
  intro p
  induction p with
  | nil => intro r; simp [chopLit]
  | cons c cs ih => intro r; simp [chopLit, ih r]

theorem capturesL_mk (c : Char) (hc : c = 'u' ∨ c = 's') (m k : Nat) :
    serviceNameCapturesL
        ("cluster-".data ++ (c :: (digitsOf m ++ ("-replica-".data ++ digitsOf k)))) =
      some (c, digitsOf m, digitsOf k) := by
  have hdash : ("-replica-".data : List Char) = '-' :: "replica-".data := by decide
  have htake := takeWhile_all_append Char.isDigit (digitsOf m) '-'
    ("replica-".data ++ digitsOf k) (digitsOf_digits m) (by decide)
  have harg : digitsOf m ++ (("-replica-".data : List Char) ++ digitsOf k) =
      digitsOf m ++ ('-' :: ("replica-".data ++ digitsOf k)) := by
    rw [hdash]
    rfl
  have ht1 : List.takeWhile Char.isDigit
      (digitsOf m ++ ("-replica-".data ++ digitsOf k)) = digitsOf m := by
    rw [harg]
    exact htake.1
  have ht2 : List.dropWhile Char.isDigit
      (digitsOf m ++ ("-replica-".data ++ digitsOf k)) =
        '-' :: ("replica-".data ++ digitsOf k) := by
    rw [harg]
    exact htake.2
  have hchop2 : chopLit "-replica-".data ('-' :: ("replica-".data ++ digitsOf k)) =
      some (digitsOf k) := by
    rw [show ('-' :: ("replica-".data ++ digitsOf k)) =
          "-replica-".data ++ digitsOf k from by rw [hdash]; rfl]
    exact chopLit_self _ _
  have hne1 : ¬((digitsOf m).isEmpty = true) := by
    simp [List.isEmpty_iff, digitsOf_ne_nil m]
  have hne2 : ¬((digitsOf k).isEmpty = true) := by
    simp [List.isEmpty_iff, digitsOf_ne_nil k]
  have hall : (digitsOf k).all Char.isDigit = true := by
    rw [List.all_eq_true]
    exact digitsOf_digits k
  unfold serviceNameCapturesL
  rw [chopLit_self]
  show capturesAfterTag c (digitsOf m ++ ("-replica-".data ++ digitsOf k)) =
    some (c, digitsOf m, digitsOf k)
  unfold capturesAfterTag
  rw [if_pos hc, ht1, ht2, if_neg hne1, hchop2]
  show (if (digitsOf k).isEmpty = true then none
        else if (digitsOf k).all Char.isDigit = true then
          some (c, digitsOf m, digitsOf k)
        else none) = some (c, digitsOf m, digitsOf k)
  rw [if_neg hne2, if_pos hall]

theorem generate_data_user (n : Fin u64Bound) (rid : ReplicaId) :
    (generate_replica_service_name (.User n) rid).data =
      "cluster-".data ++ ('u' :: (digitsOf n.val ++ ("-replica-".data ++ digitsOf rid.val))) := by
  simp [generate_replica_service_name, ComputeInstanceId.render, natStr,
    String.data_append]

theorem generate_data_system (n : Fin u64Bound) (rid : ReplicaId) :
    (generate_replica_service_name (.System n) rid).data =
      "cluster-".data ++ ('s' :: (digitsOf n.val ++ ("-replica-".data ++ digitsOf rid.val))) := by
  simp [generate_replica_service_name, ComputeInstanceId.render, natStr,
    String.data_append]

theorem serviceNameCaptures_generate (iid : ComputeInstanceId) (rid : ReplicaId) :
    serviceNameCaptures (generate_replica_service_name iid rid) =
      some (match iid with | .User _ => 'u' | .System _ => 's',
            digitsOf (match iid with | .User n => n.val | .System n => n.val),
            digitsOf rid.val) := by
  cases iid with
  | User n =>
      unfold serviceNameCaptures
      rw [generate_data_user]
      exact capturesL_mk 'u' (Or.inl rfl) n.val rid.val
  | System n =>
      unfold serviceNameCaptures
      rw [generate_data_system]
      exact capturesL_mk 's' (Or.inr rfl) n.val rid.val

theorem parse_generate (iid : ComputeInstanceId) (rid : ReplicaId) :
    parse_replica_service_name (generate_replica_service_name iid rid) =
      .ok (iid, rid) := by
  cases iid with
  | User n =>
      simp only [parse_replica_service_name, serviceNameCaptures_generate,
        digitsToNat_digitsOf]
      rw [dif_pos n.isLt, dif_pos rid.isLt]
      simp
  | System n =>
      simp only [parse_replica_service_name, serviceNameCaptures_generate,
        digitsToNat_digitsOf]
      rw [dif_pos n.isLt, dif_pos rid.isLt]
      simp

/-- C4: service-name generation and parsing are exact inverses — generation
produces `cluster-<instance_id>-replica-<replica_id>`, parsing a generated
name recovers the original pair, and every string failing the capture
grammar is rejected with the recoverable error carrying the input
verbatim. -/
theorem claim_C4 :
    (∀ (iid : ComputeInstanceId) (rid : ReplicaId),
      generate_replica_service_name iid rid =
        "cluster-" ++ iid.render ++ "-replica-" ++ natStr rid.val) ∧
    (∀ (iid : ComputeInstanceId) (rid : ReplicaId),
      parse_replica_service_name (generate_replica_service_name iid rid) =
        .ok (iid, rid)) ∧
    (∀ s : String, serviceNameCaptures s = none →
      parse_replica_service_name s = .err ("invalid service name: " ++ s)) := by
  refine ⟨?_, parse_generate, ?_⟩
  · intro iid rid
    rfl
  · intro s h
    simp [parse_replica_service_name, h]

/-- C4 witness: the inverse direction at the concrete pair `(u17, 3)` and
the rejection of the concrete non-matching name `cluster-x1-replica-1`. -/
theorem claim_C4_witness :
    parse_replica_service_name
        (generate_replica_service_name (.User ⟨17, by decide⟩) ⟨3, by decide⟩) =
      .ok (.User ⟨17, by decide⟩, ⟨3, by decide⟩) ∧
    parse_replica_service_name "cluster-x1-replica-1" =
      .err ("invalid service name: " ++ "cluster-x1-replica-1") :=
  ⟨claim_C4.2.1 (.User ⟨17, by decide⟩) ⟨3, by decide⟩,
   claim_C4.2.2 "cluster-x1-replica-1" (by decide)⟩

/-- C10: the recoverable error is returned only when the capture grammar
fails; on a matching input the two captured digit runs are converted with
`parse().unwrap()`, so a value that does not fit in a `u64` panics instead
of returning an error — here a `u64::MAX + 1` instance id. -/
theorem claim_C10 :
    (∀ (s : String) (m : String), parse_replica_service_name s = .err m →
      serviceNameCaptures s = none) ∧
    parse_replica_service_name "cluster-u18446744073709551616-replica-0" =
      .panicked := by
  constructor
  · intro s m h
    cases hc : serviceNameCaptures s with
    | none => rfl
    | some g =>
        exfalso
        obtain ⟨c, ds1, ds2⟩ := g
        simp only [parse_replica_service_name, hc] at h
        split at h
        · split at h
          · exact ParseOutcome.noConfusion h
          · exact ParseOutcome.noConfusion h
        · exact ParseOutcome.noConfusion h
  · decide

/-- C10 witness: the error-only-on-grammar-failure direction applied at the
concrete rejected input `x`. -/
theorem claim_C10_witness :
    serviceNameCaptures "x" = none :=
  claim_C10.1 "x" ("invalid service name: " ++ "x") (by decide)
